import Mathlib

set_option maxRecDepth 4000000

/-!
Verification development for the dpu-sim repository.

We give a shallow embedding of the parts of the code that the claims
C1..C10 talk about:

* `py-version/bridge_utils.py` — deterministic bridge naming
  (`generate_bridge_name`, built on `hashlib.sha256`), and the
  host-to-DPU network naming.
* `install_software.py` — the readiness-polling primitive
  (`get_vm_ip_with_retry`), the per-VM installation driver
  (`install_all_vms`) and the cluster orchestration
  (`setup_k8s_cluster` with its helpers, including the
  OVN worker wait/approve retry cycle).
* `ovn_kubernetes_deploy.py` / the OVN install script — the ordered
  manifest application.
* `vm_utils.py` — teardown (`cleanup_vms` / `cleanup_networks` /
  `cleanup_ovs_bridge`).

Machine integers are modelled as `Nat` with explicit reduction
modulo `2^32` where the Python code (via hashlib) works on 32-bit
words.  Remote effects (ssh, libvirt) are modelled as oracle
functions supplied in an environment record, and the orchestration
functions return explicit traces of the remote actions they perform.
-/

namespace DpuSim

/-! ## SHA-256

`bridge_utils.generate_bridge_name` calls `hashlib.sha256` on the
UTF-8 encoding of `f"{host_name}-{dpu_name}"` and takes the first 8
characters of the hex digest.  We embed SHA-256 (FIPS 180-4) over
byte lists, with 32-bit words represented as `Nat` reduced by the
mask `2^32 - 1`. -/

namespace Sha

/-- `2^32 - 1`: the mask that truncates a `Nat` to a 32-bit word. -/
def mask32 : Nat := 4294967295

/-- Right rotation of a 32-bit word. -/
def rotr (n x : Nat) : Nat :=
  Nat.land (Nat.lor (Nat.shiftRight x n) (Nat.shiftLeft x (32 - n))) mask32

/-- SHA-256 `Ch(x,y,z) = (x ∧ y) ⊕ (¬x ∧ z)` (complement as xor with the mask). -/
def ch (x y z : Nat) : Nat := Nat.xor (Nat.land x y) (Nat.land (Nat.xor x mask32) z)

/-- SHA-256 `Maj(x,y,z)`. -/
def maj (x y z : Nat) : Nat :=
  Nat.xor (Nat.xor (Nat.land x y) (Nat.land x z)) (Nat.land y z)

/-- SHA-256 `Σ₀`. -/
def bigS0 (x : Nat) : Nat := Nat.xor (Nat.xor (rotr 2 x) (rotr 13 x)) (rotr 22 x)

/-- SHA-256 `Σ₁`. -/
def bigS1 (x : Nat) : Nat := Nat.xor (Nat.xor (rotr 6 x) (rotr 11 x)) (rotr 25 x)

/-- SHA-256 `σ₀`. -/
def smallS0 (x : Nat) : Nat :=
  Nat.xor (Nat.xor (rotr 7 x) (rotr 18 x)) (Nat.shiftRight x 3)

/-- SHA-256 `σ₁`. -/
def smallS1 (x : Nat) : Nat :=
  Nat.xor (Nat.xor (rotr 17 x) (rotr 19 x)) (Nat.shiftRight x 10)

/-- The 64 SHA-256 round constants. -/
def K : List Nat :=
  [1116352408, 1899447441, 3049323471, 3921009573, 961987163, 1508970993,
   2453635748, 2870763221, 3624381080, 310598401, 607225278, 1426881987,
   1925078388, 2162078206, 2614888103, 3248222580, 3835390401, 4022224774,
   264347078, 604807628, 770255983, 1249150122, 1555081692, 1996064986,
   2554220882, 2821834349, 2952996808, 3210313671, 3336571891, 3584528711,
   113926993, 338241895, 666307205, 773529912, 1294757372, 1396182291,
   1695183700, 1986661051, 2177026350, 2456956037, 2730485921, 2820302411,
   3259730800, 3345764771, 3516065817, 3600352804, 4094571909, 275423344,
   430227734, 506948616, 659060556, 883997877, 958139571, 1322822218,
   1537002063, 1747873779, 1955562222, 2024104815, 2227730452, 2361852424,
   2428436474, 2756734187, 3204031479, 3329325298]

/-- Big-endian bytes of the 64-bit message bit length. -/
def lenBytes (n : Nat) : List Nat :=
  [Nat.mod (Nat.shiftRight n 56) 256, Nat.mod (Nat.shiftRight n 48) 256,
   Nat.mod (Nat.shiftRight n 40) 256, Nat.mod (Nat.shiftRight n 32) 256,
   Nat.mod (Nat.shiftRight n 24) 256, Nat.mod (Nat.shiftRight n 16) 256,
   Nat.mod (Nat.shiftRight n 8) 256, Nat.mod n 256]

/-- SHA-256 padding: `0x80`, zeros up to 56 mod 64, then the bit length. -/
def pad (msg : List Nat) : List Nat :=
  msg ++ 0x80 :: List.replicate ((119 - msg.length % 64) % 64) 0 ++ lenBytes (8 * msg.length)

/-- Group bytes into big-endian 32-bit words (length a multiple of 4). -/
def toWords : List Nat → List Nat
  | b0 :: b1 :: b2 :: b3 :: rest =>
      Nat.lor (Nat.lor (Nat.shiftLeft b0 24) (Nat.shiftLeft b1 16))
        (Nat.lor (Nat.shiftLeft b2 8) b3) :: toWords rest
  | _ => []

/-- The next message-schedule word from the last 16 (given most recent first). -/
def extW (rev : List Nat) : Nat :=
  Nat.land (Nat.add (Nat.add (smallS1 (rev.getD 1 0)) (rev.getD 6 0))
    (Nat.add (smallS0 (rev.getD 14 0)) (rev.getD 15 0))) mask32

/-- Extend the (reversed) message schedule by `n` words. -/
def extendSched : Nat → List Nat → List Nat
  | 0, rev => rev
  | n + 1, rev => extendSched n (extW rev :: rev)

/-- The SHA-256 working state: eight 32-bit words `(a,b,c,d,e,f,g,h)`. -/
abbrev St := Nat × Nat × Nat × Nat × Nat × Nat × Nat × Nat

/-- The SHA-256 round function over lists of round constants and schedule words. -/
def rounds : List Nat → List Nat → St → St
  | k :: ks, w :: ws, (a, b, c, d, e, f, g, h) =>
      let t1 := Nat.add (Nat.add (Nat.add (Nat.add h (bigS1 e)) (ch e f g)) k) w
      let t2 := Nat.add (bigS0 a) (maj a b c)
      rounds ks ws
        (Nat.land (Nat.add t1 t2) mask32, a, b, c, Nat.land (Nat.add d t1) mask32, e, f, g)
  | _, _, st => st

/-- Truncating word addition. -/
def addW (x y : Nat) : Nat := Nat.land (Nat.add x y) mask32

/-- One SHA-256 compression of a 16-word block into the chaining state. -/
def compress (st : St) (ws16 : List Nat) : St :=
  match st with
  | (h0, h1, h2, h3, h4, h5, h6, h7) =>
      match rounds K ((extendSched 48 ws16.reverse).reverse) (h0, h1, h2, h3, h4, h5, h6, h7) with
      | (a, b, c, d, e, f, g, h) =>
          (addW a h0, addW b h1, addW c h2, addW d h3,
           addW e h4, addW f h5, addW g h6, addW h h7)

/-- Process the padded words block by block. -/
def blocks (st : St) : List Nat → St
  | w0 :: w1 :: w2 :: w3 :: w4 :: w5 :: w6 :: w7 ::
    w8 :: w9 :: w10 :: w11 :: w12 :: w13 :: w14 :: w15 :: rest =>
      blocks (compress st [w0, w1, w2, w3, w4, w5, w6, w7, w8, w9, w10, w11, w12, w13, w14, w15])
        rest
  | _ => st

/-- The SHA-256 initial state. -/
def initSt : St :=
  (0x6a09e667, 0xbb67ae85, 0x3c6ef372, 0xa54ff53a, 0x510e527f, 0x9b05688c, 0x1f83d9ab, 0x5be0cd19)

/-- SHA-256 of a byte list, as the final eight-word state. -/
def sha256Words (msg : List Nat) : St := blocks initSt (toWords (pad msg))

/-- Lower-case hex character of a nibble. -/
def hexChar (n : Nat) : Char := if n < 10 then Char.ofNat (48 + n) else Char.ofNat (87 + n)

/-- The eight hex characters of a 32-bit word, most significant first. -/
def hexWord (w : Nat) : List Char :=
  [hexChar (Nat.mod (Nat.shiftRight w 28) 16), hexChar (Nat.mod (Nat.shiftRight w 24) 16),
   hexChar (Nat.mod (Nat.shiftRight w 20) 16), hexChar (Nat.mod (Nat.shiftRight w 16) 16),
   hexChar (Nat.mod (Nat.shiftRight w 12) 16), hexChar (Nat.mod (Nat.shiftRight w 8) 16),
   hexChar (Nat.mod (Nat.shiftRight w 4) 16), hexChar (Nat.mod w 16)]

/-- The state as a list of its eight words. -/
def stWords (s : St) : List Nat :=
  [s.1, s.2.1, s.2.2.1, s.2.2.2.1, s.2.2.2.2.1, s.2.2.2.2.2.1, s.2.2.2.2.2.2.1, s.2.2.2.2.2.2.2]

/-- The 64 hex characters of the SHA-256 digest (`hashlib...hexdigest()`). -/
def hexdigestChars (msg : List Nat) : List Char := (stWords (sha256Words msg)).flatMap hexWord

/-- UTF-8 encoding of one character (Python's `str.encode()`). -/
def utf8Char (c : Char) : List Nat :=
  let n := c.toNat
  if n < 0x80 then [n]
  else if n < 0x800 then [Nat.lor 0xC0 (Nat.shiftRight n 6), Nat.lor 0x80 (Nat.land n 0x3F)]
  else if n < 0x10000 then
    [Nat.lor 0xE0 (Nat.shiftRight n 12), Nat.lor 0x80 (Nat.land (Nat.shiftRight n 6) 0x3F),
     Nat.lor 0x80 (Nat.land n 0x3F)]
  else
    [Nat.lor 0xF0 (Nat.shiftRight n 18), Nat.lor 0x80 (Nat.land (Nat.shiftRight n 12) 0x3F),
     Nat.lor 0x80 (Nat.land (Nat.shiftRight n 6) 0x3F), Nat.lor 0x80 (Nat.land n 0x3F)]

/-- UTF-8 bytes of a string. -/
def encodeStr (s : String) : List Nat := s.data.flatMap utf8Char

end Sha

/-! ## bridge_utils.py -/

/-- `generate_bridge_name(host_name, dpu_name)`:
hash `f"{host_name}-{dpu_name}"`, take the first 8 hex characters, and
prepend the tag `"h2d-"`. -/
def generate_bridge_name (host_name dpu_name : String) : String :=
  let combined := host_name ++ "-" ++ dpu_name
  let short_hash := String.mk ((Sha.hexdigestChars (Sha.encodeStr combined)).take 8)
  "h2d-" ++ short_hash

/-- `get_host_to_dpu_network_name(host_name, dpu_name) = f"h2d-{host_name}-{dpu_name}"`. -/
def get_host_to_dpu_network_name (host_name dpu_name : String) : String :=
  "h2d-" ++ host_name ++ "-" ++ dpu_name

/-- SHA-256 test vector: the digest of `"abc"` (first and last words). -/
theorem sha256_abc_check :
    (Sha.sha256Words (Sha.encodeStr "abc")).1 = 0xba7816bf ∧
      (Sha.sha256Words (Sha.encodeStr "abc")).2.2.2.2.2.2.2 = 0xf20015ad := by
  constructor <;> rfl

/-- SHA-256 test vector: digest of the empty string starts with `0xe3b0c442`. -/
theorem sha256_empty_check :
    (Sha.sha256Words (Sha.encodeStr "")).1 = 0xe3b0c442 := by rfl

/-! ### Length and shape facts about `generate_bridge_name` -/

theorem hexWord_length (w : Nat) : (Sha.hexWord w).length = 8 := by
  simp [Sha.hexWord]

theorem hexdigestChars_length (m : List Nat) : (Sha.hexdigestChars m).length = 64 := by
  unfold Sha.hexdigestChars
  obtain ⟨a, b, c, d, e, f, g, h⟩ := Sha.sha256Words m
  simp [Sha.stWords, Sha.hexWord]

theorem generate_bridge_name_length (a b : String) :
    (generate_bridge_name a b).length = 12 := by
  unfold generate_bridge_name
  rw [String.length_append]
  simp [String.length, List.length_take, hexdigestChars_length]

/-- Every character of `hexWord` is a lower-case hex digit. -/
theorem hexWord_chars (w : Nat) :
    ∀ c ∈ Sha.hexWord w, c ∈ "0123456789abcdef".data := by
  have hx : ∀ n < 16, Sha.hexChar n ∈ "0123456789abcdef".data := by decide
  have hm : ∀ n : Nat, Sha.hexChar (Nat.mod n 16) ∈ "0123456789abcdef".data := fun n =>
    hx _ (Nat.mod_lt _ (by decide))
  intro c hc
  simp only [Sha.hexWord, List.mem_cons, List.not_mem_nil, or_false] at hc
  rcases hc with rfl | rfl | rfl | rfl | rfl | rfl | rfl | rfl <;> exact hm _

/-! ## Readiness polling: `SoftwareInstaller.get_vm_ip_with_retry`

The probe is `vm_utils.get_vm_ip`: it returns an address, or `None`
when there is no lease yet, and — crucially — it catches
`libvirt.libvirtError`, prints it, and returns `None` as well.  So a
fatal lookup error surfaces to the retry loop as an ordinary "no IP
yet" result.  The loop makes up to `max_attempts` calls, sleeping
2 seconds after every attempt except the last. -/

/-- The raw outcome of one libvirt address lookup. -/
inductive LibvirtIpResult where
  | addr (ip : String) : LibvirtIpResult
  | noLease : LibvirtIpResult
  | libvirtError (msg : String) : LibvirtIpResult
deriving DecidableEq

/-- `vm_utils.get_vm_ip`: a found IPv4 lease is returned; no lease gives
`None`; a `libvirt.libvirtError` is caught (and printed) and gives `None`. -/
def get_vm_ip : LibvirtIpResult → Option String
  | .addr ip => some ip
  | .noLease => none
  | .libvirtError _ => none

/-- Python truthiness of the probe value (`if ip:`). -/
def truthy : Option String → Bool
  | none => false
  | some s => !(s == "")

/-- The retry loop of `get_vm_ip_with_retry`, with `fuel` remaining
iterations and `attempt` the current 0-based index.  Returns the result
together with the number of probe calls made and of sleeps performed. -/
def retryGo (probe : Nat → LibvirtIpResult) (maxA : Nat) :
    Nat → Nat → Option String × Nat × Nat
  | _, 0 => (none, 0, 0)
  | attempt, fuel + 1 =>
      let ip := get_vm_ip (probe attempt)
      if truthy ip then (ip, 1, 0)
      else
        let r := retryGo probe maxA (attempt + 1) fuel
        (r.1, r.2.1 + 1, r.2.2 + if attempt < maxA - 1 then 1 else 0)

/-- `get_vm_ip_with_retry(vm_name, max_attempts)`: the probe is indexed
by attempt number (the lease state evolves over time).  Returns
`(result, calls, sleeps)`. -/
def get_vm_ip_with_retry (probe : Nat → LibvirtIpResult) (maxA : Nat) :
    Option String × Nat × Nat :=
  retryGo probe maxA 0 maxA

theorem retryGo_timeout (probe : Nat → LibvirtIpResult) (maxA : Nat) :
    ∀ fuel start, (∀ i, start ≤ i → i < start + fuel → truthy (get_vm_ip (probe i)) = false) →
      start + fuel ≤ maxA →
      retryGo probe maxA start fuel =
        (none, fuel, fuel - (if start + fuel = maxA then 1 else 0)) := by
  intro fuel
  induction fuel with
  | zero => intro start _ _; simp [retryGo]
  | succ n ih =>
      intro start hfalse hle
      have h0 : truthy (get_vm_ip (probe start)) = false :=
        hfalse start le_rfl (by omega)
      have hrec := ih (start + 1) (fun i h1 h2 => hfalse i (by omega) (by omega)) (by omega)
      simp only [retryGo, h0, Bool.false_eq_true, if_false, hrec, Prod.mk.injEq]
      refine ⟨trivial, trivial, ?_⟩
      by_cases hend : start + (n + 1) = maxA
      · simp only [if_pos (by omega : start + 1 + n = maxA), if_pos hend]
        by_cases hs : start < maxA - 1
        · simp only [if_pos hs]; omega
        · simp only [if_neg hs]; omega
      · simp only [if_neg (by omega : ¬ start + 1 + n = maxA), if_neg hend,
          if_pos (by omega : start < maxA - 1)]
        omega

theorem retryGo_success (probe : Nat → LibvirtIpResult) (maxA : Nat) :
    ∀ fuel start n v, n < fuel →
      (∀ i, start ≤ i → i < start + n → truthy (get_vm_ip (probe i)) = false) →
      get_vm_ip (probe (start + n)) = some v → truthy (some v) = true →
      start + fuel ≤ maxA →
      retryGo probe maxA start fuel = (some v, n + 1, n) := by
  intro fuel
  induction fuel with
  | zero => intro start n v h; omega
  | succ m ih =>
      intro start n v hn hfalse hval htr hle
      cases n with
      | zero =>
          have h0 : get_vm_ip (probe start) = some v := by simpa using hval
          simp only [retryGo, h0, htr, if_pos]
      | succ k =>
          have h0 : truthy (get_vm_ip (probe start)) = false :=
            hfalse start le_rfl (by omega)
          have hrec := ih (start + 1) k v (by omega)
            (fun i h1 h2 => hfalse i (by omega) (by omega))
            (by have : start + 1 + k = start + (k + 1) := by omega
                rw [this]; exact hval)
            htr (by omega)
          simp only [retryGo, h0, Bool.false_eq_true, if_false, hrec]
          have : start < maxA - 1 := by omega
          simp only [if_pos this]

theorem retryGo_some_inv (probe : Nat → LibvirtIpResult) (maxA : Nat) :
    ∀ fuel start v c s, start + fuel ≤ maxA →
      retryGo probe maxA start fuel = (some v, c, s) →
      ∃ n, n < fuel ∧ c = n + 1 ∧ s = n ∧
        (∀ i, start ≤ i → i < start + n → truthy (get_vm_ip (probe i)) = false) ∧
        get_vm_ip (probe (start + n)) = some v ∧ truthy (some v) = true := by
  intro fuel
  induction fuel with
  | zero => intro start v c s _ h; simp [retryGo] at h
  | succ m ih =>
      intro start v c s hle h
      by_cases h0 : truthy (get_vm_ip (probe start)) = true
      · simp only [retryGo, h0, if_pos, Prod.mk.injEq] at h
        obtain ⟨hv, hc, hs⟩ := h
        exact ⟨0, by omega, by omega, by omega, by omega, by simpa using hv,
          by rw [← hv]; exact h0⟩
      · have h0' : truthy (get_vm_ip (probe start)) = false := by
          revert h0; cases truthy (get_vm_ip (probe start)) <;> simp
        simp only [retryGo, h0', Bool.false_eq_true, if_false, Prod.mk.injEq] at h
        obtain ⟨hv, hc, hs⟩ := h
        obtain ⟨r1, r2, r3, hr⟩ : ∃ r1 r2 r3, retryGo probe maxA (start + 1) m = (r1, r2, r3) :=
          ⟨_, _, _, rfl⟩
        rw [hr] at hv hc hs
        simp only at hv hc hs
        obtain ⟨n, hn, hcn, hsn, hfn, hvn, htn⟩ :=
          ih (start + 1) v r2 r3 (by omega) (by rw [hr, hv])
        refine ⟨n + 1, by omega, by omega, ?_, ?_, ?_, htn⟩
        · have : start < maxA - 1 := by omega
          simp only [if_pos this] at hs
          omega
        · intro i hi1 hi2
          rcases Nat.eq_or_lt_of_le hi1 with rfl | hgt
          · exact h0'
          · exact hfn i (by omega) (by omega)
        · have : start + (n + 1) = start + 1 + n := by omega
          rw [this]; exact hvn

/-- C3: counterexample to the claim as stated.  The probe's first call
raises a fatal `libvirt.libvirtError`; `get_vm_ip` catches it and
returns `None`, so `get_vm_ip_with_retry` sleeps and calls the probe a
second time (two calls in total) instead of returning immediately on
the first fatal result. -/
def probeFatalThenOk : Nat → LibvirtIpResult := fun n =>
  if n = 0 then .libvirtError "Cannot recv data: Connection reset by peer"
  else .addr "192.168.122.50"

theorem C3_fatal_is_retried :
    probeFatalThenOk 0 = .libvirtError "Cannot recv data: Connection reset by peer" ∧
      get_vm_ip (probeFatalThenOk 0) = none ∧
      get_vm_ip_with_retry probeFatalThenOk 30 = (some "192.168.122.50", 2, 1) := by
  refine ⟨rfl, rfl, ?_⟩
  decide

/-- C3 (amended): the polling primitive `get_vm_ip_with_retry` is a
two-outcome poller.  (i) It returns the value of the first truthy probe
result on the Nth call, having made exactly N calls and slept N−1
times, if and only if the first N−1 probe results are falsy and the Nth
is truthy; (ii) after `max_attempts` falsy results it returns `None`
having made exactly `max_attempts` calls, sleeping between attempts but
not after the last one; and (iii) there is no separate fatal outcome: a
`libvirtError` raised by the probe is caught inside `get_vm_ip` and is
retried like a "not yet" result rather than being returned
immediately. -/
theorem C3_poller_characterization :
    (∀ (probe : Nat → LibvirtIpResult) (maxA N : Nat) (v : String),
        1 ≤ N → N ≤ maxA →
        (∀ i, i < N - 1 → truthy (get_vm_ip (probe i)) = false) →
        get_vm_ip (probe (N - 1)) = some v → truthy (some v) = true →
        get_vm_ip_with_retry probe maxA = (some v, N, N - 1)) ∧
    (∀ (probe : Nat → LibvirtIpResult) (maxA : Nat) (v : String) (c s : Nat),
        get_vm_ip_with_retry probe maxA = (some v, c, s) →
        1 ≤ c ∧ c ≤ maxA ∧ s = c - 1 ∧
          (∀ i, i < c - 1 → truthy (get_vm_ip (probe i)) = false) ∧
          get_vm_ip (probe (c - 1)) = some v ∧ truthy (some v) = true) ∧
    (∀ (probe : Nat → LibvirtIpResult) (maxA : Nat), 1 ≤ maxA →
        (∀ i, i < maxA → truthy (get_vm_ip (probe i)) = false) →
        get_vm_ip_with_retry probe maxA = (none, maxA, maxA - 1)) ∧
    (∀ msg, get_vm_ip (.libvirtError msg) = none) := by
  refine ⟨?_, ?_, ?_, fun _ => rfl⟩
  · intro probe maxA N v h1 h2 hfalse hval htr
    have := retryGo_success probe maxA maxA 0 (N - 1) v (by omega)
      (fun i hi1 hi2 => hfalse i (by omega)) (by simpa using hval) htr (by omega)
    unfold get_vm_ip_with_retry
    rw [this]
    have : N - 1 + 1 = N := by omega
    rw [this]
  · intro probe maxA v c s h
    obtain ⟨n, hn, hc, hs, hf, hv, ht⟩ :=
      retryGo_some_inv probe maxA maxA 0 v c s (by omega) h
    exact ⟨by omega, by omega, by omega,
      fun i hi => hf i (by omega) (by omega), by simpa [show c - 1 = n by omega] using hv, ht⟩
  · intro probe maxA h1 hfalse
    have := retryGo_timeout probe maxA maxA 0
      (fun i hi1 hi2 => hfalse i (by omega)) (by omega)
    unfold get_vm_ip_with_retry
    rw [this]
    simp

/-- Witness for `C3_poller_characterization`: a concrete probe that is
falsy once then truthy, polled with `max_attempts = 30`. -/
def probeOkAtSecond : Nat → LibvirtIpResult := fun n =>
  if n = 0 then .noLease else .addr "192.168.122.7"

theorem C3_poller_characterization_witness :
    get_vm_ip_with_retry probeOkAtSecond 30 = (some "192.168.122.7", 2, 1) ∧
      get_vm_ip_with_retry (fun _ => .noLease) 3 = (none, 3, 2) :=
  ⟨C3_poller_characterization.1 probeOkAtSecond 30 2 "192.168.122.7"
      (by decide) (by decide) (by decide) (by decide) (by decide),
    C3_poller_characterization.2.2.1 (fun _ => .noLease) 3 (by decide) (by decide)⟩

/-! ## C10: bridge-name collisions

`generate_bridge_name` hashes the single string `f"{host}-{dpu}"`, so
the name depends only on that joined string.  Equality of joined
strings therefore forces equal names (e.g. the distinct pairs
`("a-b","c")` and `("a","b-c")`).  The converse direction of the
claimed "exactly when" fails: the name keeps only the first 8 hex
characters (32 bits) of the hash, and the two joined strings
`"x31667-y"` and `"x57006-y"` (found by birthday search) share that
prefix. -/

/-- C10: counterexample to the claim as stated.  The pairs
`("x31667","y")` and `("x57006","y")` have different dash-joined
concatenations yet produce the same derived bridge name, refuting
"the same name exactly when their dash-joined concatenations are
equal". -/
theorem C10_prefix_collision :
    generate_bridge_name "x31667" "y" = generate_bridge_name "x57006" "y" ∧
      ("x31667" ++ "-" ++ "y") ≠ ("x57006" ++ "-" ++ "y") := by
  constructor
  · decide
  · decide

/-- C10 (amended): equal dash-joined concatenations always give equal
bridge names — in particular the distinct pairs `("a-b","c")` and
`("a","b-c")` yield the identical name, so the derived name is not
injective on the pair; but name equality does not conversely force
join equality, since the 8-hex-character prefix can collide. -/
theorem C10_join_determines_name :
    (∀ a b a' b' : String, a ++ "-" ++ b = a' ++ "-" ++ b' →
        generate_bridge_name a b = generate_bridge_name a' b') ∧
      generate_bridge_name "a-b" "c" = generate_bridge_name "a" "b-c" ∧
      (("a-b", "c") : String × String) ≠ ("a", "b-c") := by
  refine ⟨fun a b a' b' h => ?_, by decide, by decide⟩
  unfold generate_bridge_name
  rw [h]

/-- Witness for `C10_join_determines_name`: the pairs `("p-q","r")` and
`("p","q-r")` join to the same string, so the theorem's first part
applies and gives them the same name. -/
theorem C10_join_determines_name_witness :
    generate_bridge_name "p-q" "r" = generate_bridge_name "p" "q-r" :=
  C10_join_determines_name.1 "p-q" "r" "p" "q-r" (by decide)

/-! ## The installer and cluster orchestration (`install_software.py`)

Remote effects are abstracted by an `Env` of oracles: address
resolution via `get_vm_ip_with_retry` (already `Option`-valued),
success/failure of each remote step keyed by VM name, and the
attempt-indexed outcomes of the OVN worker wait cycle.  The
orchestration functions return the `cluster_setup_results`
assignments, a trace of the remote actions performed, and the
function's boolean return value. -/

/-- One VM entry of `config['vms']`. -/
structure VmCfg where
  name : String
  vmType : Option String
  pairedHost : Option String
  k8s_role : Option String
  k8s_cluster : Option String
  k8s_node_ip : Option String
deriving DecidableEq

/-- One cluster entry of `config['kubernetes']['clusters']`. -/
structure ClusterCfg where
  name : String
  pod_cidr : Option String
  service_cidr : Option String
  cni : Option String
deriving DecidableEq

/-- The configuration parts `install_software.py` reads. -/
structure Config where
  vms : List VmCfg
  clusters : List ClusterCfg
deriving DecidableEq

/-- Python truthiness of an optional string (`if not x:`). -/
def pyTruthyStr (o : Option String) : Bool :=
  match o with
  | none => false
  | some s => !(s == "")

/-- View of an optional string under Python truthiness: a `None` or
empty string becomes `none`. -/
def strVal? (o : Option String) : Option String :=
  match o with
  | none => none
  | some s => if s == "" then none else some s

/-- The oracles for the remote effects of `install_software.py`. -/
structure Env where
  getIp : String → Option String
  installOk : String → Bool
  brexOk : String → Bool
  initMaster : String → Option String
  ovnCniOk : String → Bool
  flannelOk : String → Bool
  multusOk : String → Bool
  joinOk : String → Bool
  ovnPodFound : String → Nat → Bool
  ovnAllReady : String → Nat → Bool

/-- The remote actions the orchestrator performs, in order. -/
inductive Ev where
  | brex (vm : String) : Ev
  | initMaster (cluster vm advertiseIp sshIp : String) : Ev
  | installOvnCni (cluster vm : String) : Ev
  | installFlannelCni (cluster vm : String) : Ev
  | installMultusCni (cluster vm : String) : Ev
  | joinWorker (vm : String) : Ev
  | waitOvnPod (vm : String) (attempt : Nat) : Ev
  | approveCsrs : Ev
  | waitOvnReady (vm : String) (attempt : Nat) : Ev
  | clusterStatus (cluster : String) : Ev
deriving DecidableEq

/-- Result of a piece of `setup_k8s_cluster`: the
`cluster_setup_results` assignments made, the trace of remote actions,
and the boolean outcome. -/
structure StepOut where
  results : List (String × Bool)
  trace : List Ev
  ok : Bool
deriving DecidableEq

/-- Insert one VM into the `clusters_vms` grouping (`master`/`worker`
lists per cluster key, insertion-ordered as in the Python dict). -/
def addVmToGroups (groups : List (String × List VmCfg × List VmCfg)) (c : String) (v : VmCfg) :
    List (String × List VmCfg × List VmCfg) :=
  match groups with
  | [] =>
      [(c, (if v.k8s_role == some "master" then [v] else []),
           (if v.k8s_role == some "worker" then [v] else []))]
  | (c', ms, ws) :: rest =>
      if c' == c then
        (c', ms ++ (if v.k8s_role == some "master" then [v] else []),
             ws ++ (if v.k8s_role == some "worker" then [v] else [])) :: rest
      else (c', ms, ws) :: addVmToGroups rest c v

/-- The grouping loop of `setup_k8s_cluster`: VMs without a truthy
`k8s_role` and `k8s_cluster` are skipped. -/
def groupVmsAux (acc : List (String × List VmCfg × List VmCfg)) :
    List VmCfg → List (String × List VmCfg × List VmCfg)
  | [] => acc
  | v :: rest =>
      if pyTruthyStr v.k8s_role && pyTruthyStr v.k8s_cluster then
        groupVmsAux (addVmToGroups acc (v.k8s_cluster.getD "") v) rest
      else groupVmsAux acc rest

def groupVms (vms : List VmCfg) : List (String × List VmCfg × List VmCfg) :=
  groupVmsAux [] vms

/-- Python's `str.lower()` (ASCII case folding, structurally
recursive so that it evaluates by kernel reduction). -/
def lowerStr (s : String) : String := String.mk (s.data.map Char.toLower)

/-- `get_cluster_config`: first cluster entry with the given name. -/
def get_cluster_config (cfg : Config) (cname : String) : Option ClusterCfg :=
  cfg.clusters.find? (fun c => c.name == cname)

/-- The br-ex loop over workers (OVN only): resolve each worker's
address, then set up its bridge; the first failure aborts. -/
def brexWorkersLoop (env : Env) : List VmCfg → List Ev × Bool
  | [] => ([], true)
  | w :: rest =>
      match strVal? (env.getIp w.name) with
      | none => ([], false)
      | some _ =>
          if env.brexOk w.name then
            let r := brexWorkersLoop env rest
            (Ev.brex w.name :: r.1, r.2)
          else ([Ev.brex w.name], false)

/-- The retry loop of `_wait_for_ovnkube_node_and_approve_csrs`:
wait for the worker's ovnkube-node pod; if absent, retry; if present,
approve CSRs and wait for all of the pod's containers to be ready;
if they are, succeed, otherwise approve CSRs again and retry.
`attempt` is 1-based (`maxR - fuel + 1`). -/
def ovnWaitLoop (env : Env) (worker : String) (maxR : Nat) : Nat → List Ev × Bool
  | 0 => ([], false)
  | fuel + 1 =>
      let attempt := maxR - fuel
      if env.ovnPodFound worker attempt then
        if env.ovnAllReady worker attempt then
          ([Ev.waitOvnPod worker attempt, Ev.approveCsrs, Ev.waitOvnReady worker attempt], true)
        else
          let r := ovnWaitLoop env worker maxR fuel
          (Ev.waitOvnPod worker attempt :: Ev.approveCsrs :: Ev.waitOvnReady worker attempt ::
            Ev.approveCsrs :: r.1, r.2)
      else
        let r := ovnWaitLoop env worker maxR fuel
        (Ev.waitOvnPod worker attempt :: r.1, r.2)

/-- `_wait_for_ovnkube_node_and_approve_csrs(master_ip, worker, max_retries)`. -/
def wait_for_ovnkube_node (env : Env) (worker : String) (maxR : Nat) : List Ev × Bool :=
  ovnWaitLoop env worker maxR maxR

/-- The post-join actions for one worker: the OVN wait/approve cycle
(result ignored by the caller) or a plain CSR approval. -/
def postJoinEvents (env : Env) (cni : String) (worker : String) : List Ev :=
  if cni == "ovn-kubernetes" then (wait_for_ovnkube_node env worker 3).1
  else [Ev.approveCsrs]

/-- The worker-join loop of `setup_k8s_cluster`: resolve the worker's
address and run the join command; either failure returns `False`
immediately (recording nothing); on success the CNI-specific post-join
actions run and the loop continues. -/
def joinWorkersLoop (env : Env) (cni : String) : List VmCfg → List Ev × Bool
  | [] => ([], true)
  | w :: rest =>
      match strVal? (env.getIp w.name) with
      | none => ([], false)
      | some _ =>
          if env.joinOk w.name then
            let r := joinWorkersLoop env cni rest
            (Ev.joinWorker w.name :: (postJoinEvents env cni w.name ++ r.1), r.2)
          else ([Ev.joinWorker w.name], false)

/-- Setup of a single cluster (the body of the `for cluster_name, vms
in clusters_vms.items()` loop).  Mirrors the failure paths of the
source: every failure before the join loop records
`cluster_setup_results[cluster] = False` and returns `False`; a
worker address-resolution or join failure returns `False` without
recording any result; success records `True` after the
`kubectl get nodes` status display. -/
def setupCluster (cfg : Config) (env : Env) (cname : String) (ms ws : List VmCfg) : StepOut :=
  match get_cluster_config cfg cname with
  | none => ⟨[(cname, false)], [], false⟩
  | some cc =>
    match ms with
    | [] => ⟨[(cname, false)], [], false⟩
    | m :: _ =>
      match strVal? (env.getIp m.name) with
      | none => ⟨[(cname, false)], [], false⟩
      | some mip =>
        match strVal? m.k8s_node_ip with
        | none => ⟨[(cname, false)], [], false⟩
        | some kip =>
          let cni := lowerStr (cc.cni.getD "flannel")
          let brexPhase : List Ev × Bool :=
            if cni == "ovn-kubernetes" then
              if env.brexOk m.name then
                let r := brexWorkersLoop env ws
                (Ev.brex m.name :: r.1, r.2)
              else ([Ev.brex m.name], false)
            else ([], true)
          if brexPhase.2 = false then ⟨[(cname, false)], brexPhase.1, false⟩
          else
            match env.initMaster m.name with
            | none =>
                ⟨[(cname, false)], brexPhase.1 ++ [Ev.initMaster cname m.name kip mip], false⟩
            | some joinCmd =>
              let cniPhase : List Ev × Bool :=
                if cni == "ovn-kubernetes" then
                  ([Ev.installOvnCni cname m.name], env.ovnCniOk m.name)
                else if cni == "flannel" then
                  if env.flannelOk m.name then
                    ([Ev.installFlannelCni cname m.name, Ev.installMultusCni cname m.name],
                      env.multusOk m.name)
                  else ([Ev.installFlannelCni cname m.name], false)
                else ([], false)
              if cniPhase.2 = false then
                ⟨[(cname, false)], brexPhase.1 ++ Ev.initMaster cname m.name kip mip :: cniPhase.1,
                  false⟩
              else
                let joinPhase : List Ev × Bool :=
                  if !ws.isEmpty && !(joinCmd == "") then joinWorkersLoop env cni ws
                  else ([], true)
                if joinPhase.2 = false then
                  ⟨[], brexPhase.1 ++ Ev.initMaster cname m.name kip mip ::
                      (cniPhase.1 ++ joinPhase.1), false⟩
                else
                  ⟨[(cname, true)],
                    brexPhase.1 ++ Ev.initMaster cname m.name kip mip ::
                      (cniPhase.1 ++ joinPhase.1 ++ [Ev.clusterStatus cname]), true⟩

/-- The per-cluster loop: a cluster's failure stops the whole setup. -/
def setupClustersGo (cfg : Config) (env : Env) :
    List (String × List VmCfg × List VmCfg) → StepOut
  | [] => ⟨[], [], true⟩
  | (c, ms, ws) :: rest =>
      let r := setupCluster cfg env c ms ws
      if r.ok then
        let r' := setupClustersGo cfg env rest
        ⟨r.results ++ r'.results, r.trace ++ r'.trace, r'.ok⟩
      else r

/-- `setup_k8s_cluster`: group the VMs, succeed trivially when no
cluster is configured, otherwise set up each cluster in turn. -/
def setup_k8s_cluster (cfg : Config) (env : Env) : StepOut :=
  let groups := groupVms cfg.vms
  if groups.isEmpty then ⟨[], [], true⟩
  else setupClustersGo cfg env groups

/-- The per-VM installation results of the sequential path of
`install_all_vms`. -/
def install_results (cfg : Config) (env : Env) : List (String × Bool) :=
  cfg.vms.map (fun v => (v.name, env.installOk v.name))

/-- Outcome of a whole `install_all_vms` run. -/
structure RunOut where
  vmResults : List (String × Bool)
  clusterResults : List (String × Bool)
  trace : List Ev
deriving DecidableEq

/-- `install_all_vms(parallel=False)`: install on every VM in order;
if all succeeded, run `setup_k8s_cluster`, otherwise skip cluster
setup entirely and record every configured cluster as failed. -/
def install_all_vms_seq (cfg : Config) (env : Env) : RunOut :=
  let results := install_results cfg env
  if results.all (fun r => r.2) then
    let s := setup_k8s_cluster cfg env
    ⟨results, s.results, s.trace⟩
  else
    ⟨results, cfg.clusters.map (fun c => (c.name, false)), []⟩

/-- A Python local variable that may not have been assigned yet. -/
inductive PyLocal (α : Type) where
  | unbound : PyLocal α
  | val (a : α) : PyLocal α

/-- The dict literal of the parallel branch of `install_all_vms`:
`future_to_vm = {executor.submit(self.install_on_vm, vm_name): vm_name}`.
It has exactly one key, and evaluating that key reads the local
variable `vm_name` — which at this point in the function has not been
assigned (it is only assigned by the `for future in as_completed(...)`
loop below), so CPython raises `UnboundLocalError` before submitting
anything.  The returned list is the list of VM names work was
dispatched for. -/
def future_to_vm (vm_name : PyLocal String) : Except String (List String) :=
  match vm_name with
  | .unbound => .error "UnboundLocalError: local variable vm_name referenced before assignment"
  | .val n => .ok [n]

/-- `install_all_vms(parallel=True)` up to the point where per-VM work
is dispatched: the names submitted to the thread pool. -/
def install_all_vms_parallel_dispatch (_cfg : Config) : Except String (List String) :=
  future_to_vm .unbound

/-! ### C1: the parallel install path -/

/-- A two-VM configuration with no clusters. -/
def cfgC1 : Config :=
  ⟨[⟨"vm1", none, none, none, none, none⟩, ⟨"vm2", none, none, none, none, none⟩], []⟩

/-- An environment in which every remote operation succeeds. -/
def envAllOk : Env :=
  ⟨fun n => some ("192.168.122." ++ n), fun _ => true, fun _ => true,
   fun _ => some "kubeadm join 10.0.10.1:6443 --token abcdef.0123456789abcdef",
   fun _ => true, fun _ => true, fun _ => true, fun _ => true, fun _ _ => true, fun _ _ => true⟩

/-- C1: with more than one VM configured, the parallel path of
`install_all_vms` does not dispatch one installation task per VM.  Its
`future_to_vm` dict literal has a single key that reads the unassigned
local `vm_name`, so it raises `UnboundLocalError` and dispatches work
for no VM at all — and even with `vm_name` bound it would hold exactly
one entry.  The sequential path, by contrast, records one result per
VM.  This contradicts the claimed behavior and the spec's stated
intent (one task and one recorded result per VM), which the spec
itself flags as a defect of the source. -/
theorem C1_parallel_single_dispatch :
    install_all_vms_parallel_dispatch cfgC1 =
        .error "UnboundLocalError: local variable vm_name referenced before assignment" ∧
      (∀ n : String, future_to_vm (.val n) = .ok [n]) ∧
      cfgC1.vms.length = 2 ∧
      (install_all_vms_seq cfgC1 envAllOk).vmResults = [("vm1", true), ("vm2", true)] :=
  ⟨rfl, fun _ => rfl, rfl, by decide⟩

/-! ### C5: a master's host-preparation failure blocks cluster setup -/

/-- C5: if `install_on_vm` fails for a master VM, then
`install_all_vms` skips `setup_k8s_cluster` entirely — the trace of
cluster-setup actions is empty, so in particular no worker join is
ever executed — and every configured cluster is recorded as failed. -/
theorem C5_master_install_failure_blocks_setup (cfg : Config) (env : Env) (m : VmCfg)
    (hm : m ∈ cfg.vms) (hrole : m.k8s_role = some "master")
    (hfail : env.installOk m.name = false) :
    (install_all_vms_seq cfg env).trace = [] ∧
      (∀ w, Ev.joinWorker w ∉ (install_all_vms_seq cfg env).trace) ∧
      (∀ c ∈ cfg.clusters, (c.name, false) ∈ (install_all_vms_seq cfg env).clusterResults) := by
  have hmem : (m.name, env.installOk m.name) ∈ install_results cfg env :=
    List.mem_map_of_mem _ hm
  rw [hfail] at hmem
  have hall : (install_results cfg env).all (fun r => r.2) = false := by
    rw [List.all_eq_false]
    exact ⟨(m.name, false), hmem, by simp⟩
  simp only [install_all_vms_seq, hall, Bool.false_eq_true, if_false]
  refine ⟨by trivial, fun w => by simp, fun c hc => ?_⟩
  exact List.mem_map_of_mem _ hc

/-- The C5 witness configuration: a master that fails host
preparation, a healthy worker, one configured cluster. -/
def cfgC5 : Config :=
  ⟨[⟨"m5", none, none, some "master", some "c5", some "10.5.0.1"⟩,
    ⟨"w5", none, none, some "worker", some "c5", none⟩],
   [⟨"c5", some "10.244.0.0/16", some "10.245.0.0/16", some "flannel"⟩]⟩

/-- The C5 witness environment: installation fails exactly on `m5`. -/
def envC5 : Env :=
  ⟨fun n => some ("192.168.122." ++ n), fun n => !(n == "m5"), fun _ => true,
   fun _ => some "kubeadm join 10.5.0.1:6443 --token abcdef.0123456789abcdef",
   fun _ => true, fun _ => true, fun _ => true, fun _ => true, fun _ _ => true, fun _ _ => true⟩

theorem C5_master_install_failure_blocks_setup_witness :
    (install_all_vms_seq cfgC5 envC5).trace = [] ∧
      Ev.joinWorker "w5" ∉ (install_all_vms_seq cfgC5 envC5).trace ∧
      ("c5", false) ∈ (install_all_vms_seq cfgC5 envC5).clusterResults := by
  have h := C5_master_install_failure_blocks_setup cfgC5 envC5
    ⟨"m5", none, none, some "master", some "c5", some "10.5.0.1"⟩
    (by decide) (by decide) (by decide)
  exact ⟨h.1, h.2.1 "w5", h.2.2 ⟨"c5", some "10.244.0.0/16", some "10.245.0.0/16", some "flannel"⟩
    (by decide)⟩

/-! ### C2: a worker's join failure is fatal in the source -/

/-- One cluster `c1` with master `m1` and workers `w1`, `w2`, using the
flannel CNI. -/
def cfgC2 : Config :=
  ⟨[⟨"m1", none, none, some "master", some "c1", some "10.0.10.1"⟩,
    ⟨"w1", none, none, some "worker", some "c1", some "10.0.10.2"⟩,
    ⟨"w2", none, none, some "worker", some "c1", some "10.0.10.3"⟩],
   [⟨"c1", some "10.244.0.0/16", some "10.245.0.0/16", some "flannel"⟩]⟩

/-- Every remote operation succeeds except the join of `w1`. -/
def envC2 : Env :=
  ⟨fun n => some ("192.168.122." ++ n), fun _ => true, fun _ => true,
   fun _ => some "kubeadm join 10.0.10.1:6443 --token abcdef.0123456789abcdef",
   fun _ => true, fun _ => true, fun _ => true, fun n => !(n == "w1"),
   fun _ _ => true, fun _ _ => true⟩

/-- C2: counterexample to the claim as stated.  When `w1`'s join
fails, `setup_k8s_cluster` returns `False` immediately: the healthy
worker `w2` is never joined, the final cluster-status confirmation
(`kubectl get nodes`) is never reached, and no success/failure entry
at all is recorded for the cluster — rather than continuing with the
remaining workers and reporting `w1` as degraded. -/
theorem C2_join_failure_is_fatal :
    (setup_k8s_cluster cfgC2 envC2).ok = false ∧
      Ev.joinWorker "w1" ∈ (setup_k8s_cluster cfgC2 envC2).trace ∧
      Ev.joinWorker "w2" ∉ (setup_k8s_cluster cfgC2 envC2).trace ∧
      Ev.clusterStatus "c1" ∉ (setup_k8s_cluster cfgC2 envC2).trace ∧
      (setup_k8s_cluster cfgC2 envC2).results = [] := by
  decide

theorem joinWorkersLoop_append_fail (env : Env) (cni : String) (w : VmCfg) (ws2 : List VmCfg)
    (hwip : (strVal? (env.getIp w.name)).isSome = true)
    (hwfail : env.joinOk w.name = false) :
    ∀ ws1, (∀ u ∈ ws1, (strVal? (env.getIp u.name)).isSome = true ∧ env.joinOk u.name = true) →
      joinWorkersLoop env cni (ws1 ++ w :: ws2) =
        (ws1.flatMap (fun u => Ev.joinWorker u.name :: postJoinEvents env cni u.name) ++
          [Ev.joinWorker w.name], false) := by
  intro ws1
  induction ws1 with
  | nil =>
      intro _
      obtain ⟨wip, hwip'⟩ := Option.isSome_iff_exists.mp hwip
      simp [joinWorkersLoop, hwip', hwfail]
  | cons u rest ih =>
      intro hall
      obtain ⟨huip, hujoin⟩ := hall u (List.mem_cons_self _ _)
      obtain ⟨uip, huip'⟩ := Option.isSome_iff_exists.mp huip
      simp only [List.cons_append, joinWorkersLoop, huip', hujoin, if_pos, List.append_eq]
      rw [ih (fun x hx => hall x (List.mem_cons_of_mem _ hx))]
      simp [List.flatMap_cons, List.append_assoc]

/-- C2 (amended): in the source, a worker's address-resolution or join
failure aborts the cluster setup.  On the flannel path, with a healthy
master and a first failing worker `w` after a prefix `ws1` of healthy
workers, `setupCluster` stops right after `w`'s failed join: it
returns `False`, records no entry at all for the cluster in
`cluster_setup_results`, never joins the remaining workers, and never
reaches the final `kubectl get nodes` status confirmation. -/
theorem C2_join_failure_aborts_cluster (cfg : Config) (env : Env) (cname : String)
    (cc : ClusterCfg) (m : VmCfg) (ms' ws1 ws2 : List VmCfg) (w : VmCfg)
    (mip kip jc : String)
    (hcc : get_cluster_config cfg cname = some cc)
    (hcni : lowerStr (cc.cni.getD "flannel") = "flannel")
    (hip : strVal? (env.getIp m.name) = some mip)
    (hkip : strVal? m.k8s_node_ip = some kip)
    (hinit : env.initMaster m.name = some jc) (hjc : (jc == "") = false)
    (hflan : env.flannelOk m.name = true) (hmult : env.multusOk m.name = true)
    (hws1 : ∀ u ∈ ws1, (strVal? (env.getIp u.name)).isSome = true ∧ env.joinOk u.name = true)
    (hwip : (strVal? (env.getIp w.name)).isSome = true)
    (hwfail : env.joinOk w.name = false) :
    setupCluster cfg env cname (m :: ms') (ws1 ++ w :: ws2) =
      ⟨[], Ev.initMaster cname m.name kip mip :: Ev.installFlannelCni cname m.name ::
        Ev.installMultusCni cname m.name ::
        (ws1.flatMap (fun u => Ev.joinWorker u.name :: postJoinEvents env "flannel" u.name) ++
          [Ev.joinWorker w.name]), false⟩ := by
  have hjoin := joinWorkersLoop_append_fail env "flannel" w ws2 hwip hwfail ws1 hws1
  have hne : (ws1 ++ w :: ws2).isEmpty = false := by cases ws1 <;> rfl
  have e1 : (("flannel" : String) == "ovn-kubernetes") = false := rfl
  have e2 : (("flannel" : String) == "flannel") = true := rfl
  simp only [setupCluster, hcc, hip, hkip, hinit, hcni, hflan, hmult, e1, e2, hne, hjc,
    Bool.false_eq_true, if_false, if_true, Bool.not_false, Bool.and_self, if_pos, hjoin,
    Bool.true_eq_false]
  simp

/-- Witness for `C2_join_failure_aborts_cluster`, instantiated on the
configuration `cfgC2` (worker `w1` failing before `w2`). -/
theorem C2_join_failure_aborts_cluster_witness :
    setupCluster cfgC2 envC2 "c1"
        [⟨"m1", none, none, some "master", some "c1", some "10.0.10.1"⟩]
        [⟨"w1", none, none, some "worker", some "c1", some "10.0.10.2"⟩,
         ⟨"w2", none, none, some "worker", some "c1", some "10.0.10.3"⟩] =
      ⟨[], [Ev.initMaster "c1" "m1" "10.0.10.1" "192.168.122.m1",
            Ev.installFlannelCni "c1" "m1", Ev.installMultusCni "c1" "m1",
            Ev.joinWorker "w1"], false⟩ := by
  have h := C2_join_failure_aborts_cluster cfgC2 envC2 "c1"
    ⟨"c1", some "10.244.0.0/16", some "10.245.0.0/16", some "flannel"⟩
    ⟨"m1", none, none, some "master", some "c1", some "10.0.10.1"⟩
    [] [] [⟨"w2", none, none, some "worker", some "c1", some "10.0.10.3"⟩]
    ⟨"w1", none, none, some "worker", some "c1", some "10.0.10.2"⟩
    "192.168.122.m1" "10.0.10.1" "kubeadm join 10.0.10.1:6443 --token abcdef.0123456789abcdef"
    (by decide) (by decide) (by decide) (by decide) (by decide) (by decide) (by decide) (by decide)
    (by simp) (by decide) (by decide)
  simpa using h

/-! ### C6: the OVN worker wait/approve retry cycle -/

/-- Does this event record a wait for worker `w`'s ovnkube-node pod? -/
def isPodWaitFor (w : String) : Ev → Bool
  | Ev.waitOvnPod w' _ => w' == w
  | _ => false

/-- Number of wait-for-pod attempts for worker `w` in a trace. -/
def countPodWaits (w : String) (tr : List Ev) : Nat := (tr.filter (isPodWaitFor w)).length

theorem ovnWaitLoop_false_of_never_ready (env : Env) (w : String) (maxR : Nat) :
    ∀ fuel, (∀ a, (env.ovnPodFound w a && env.ovnAllReady w a) = false) →
      (ovnWaitLoop env w maxR fuel).2 = false := by
  intro fuel h
  induction fuel with
  | zero => rfl
  | succ n ih =>
      have hna := h (maxR - n)
      simp only [ovnWaitLoop]
      by_cases hp : env.ovnPodFound w (maxR - n) = true
      · have hr : env.ovnAllReady w (maxR - n) = false := by
          rw [hp] at hna; simpa using hna
        simp [hp, hr, ih]
      · have hp' : env.ovnPodFound w (maxR - n) = false := by
          revert hp; cases env.ovnPodFound w (maxR - n) <;> simp
        simp [hp', ih]

theorem ovnWaitLoop_count_le (env : Env) (w : String) (maxR : Nat) :
    ∀ fuel, countPodWaits w (ovnWaitLoop env w maxR fuel).1 ≤ fuel := by
  intro fuel
  induction fuel with
  | zero => simp [ovnWaitLoop, countPodWaits]
  | succ n ih =>
      simp only [ovnWaitLoop]
      by_cases hp : env.ovnPodFound w (maxR - n) = true
      · by_cases hr : env.ovnAllReady w (maxR - n) = true
        · simp [hp, hr, countPodWaits, isPodWaitFor]
        · have hr' : env.ovnAllReady w (maxR - n) = false := by
            revert hr; cases env.ovnAllReady w (maxR - n) <;> simp
          simp only [hp, hr', if_true, if_false, Bool.false_eq_true]
          simp only [countPodWaits, List.filter] at ih ⊢
          simp [isPodWaitFor]
          omega
      · have hp' : env.ovnPodFound w (maxR - n) = false := by
          revert hp; cases env.ovnPodFound w (maxR - n) <;> simp
        simp only [hp', Bool.false_eq_true, if_false]
        simp only [countPodWaits, List.filter] at ih ⊢
        simp [isPodWaitFor]
        omega

theorem ovnWaitLoop_count_ge_one (env : Env) (w : String) (maxR : Nat) :
    ∀ fuel, 1 ≤ fuel → 1 ≤ countPodWaits w (ovnWaitLoop env w maxR fuel).1 := by
  intro fuel hf
  cases fuel with
  | zero => omega
  | succ n =>
      simp only [ovnWaitLoop]
      by_cases hp : env.ovnPodFound w (maxR - n) = true
      · by_cases hr : env.ovnAllReady w (maxR - n) = true
        · simp [hp, hr, countPodWaits, isPodWaitFor]
        · have hr' : env.ovnAllReady w (maxR - n) = false := by
            revert hr; cases env.ovnAllReady w (maxR - n) <;> simp
          simp [hp, hr', countPodWaits, isPodWaitFor]
      · have hp' : env.ovnPodFound w (maxR - n) = false := by
          revert hp; cases env.ovnPodFound w (maxR - n) <;> simp
        simp [hp', countPodWaits, isPodWaitFor]

theorem ovnWaitLoop_succ_not_found (env : Env) (w : String) (maxR fuel : Nat)
    (h : env.ovnPodFound w (maxR - fuel) = false) :
    ovnWaitLoop env w maxR (fuel + 1) =
      (Ev.waitOvnPod w (maxR - fuel) :: (ovnWaitLoop env w maxR fuel).1,
        (ovnWaitLoop env w maxR fuel).2) := by
  simp [ovnWaitLoop, h]

/-- Replace the OVN wait oracles of an environment. -/
def Env.withOvn (e : Env) (p r : String → Nat → Bool) : Env :=
  ⟨e.getIp, e.installOk, e.brexOk, e.initMaster, e.ovnCniOk, e.flannelOk, e.multusOk,
   e.joinOk, p, r⟩

theorem joinWorkersLoop_ok_indep (e : Env) (p r p' r' : String → Nat → Bool) (cni : String) :
    ∀ ws, (joinWorkersLoop (e.withOvn p r) cni ws).2 =
      (joinWorkersLoop (e.withOvn p' r') cni ws).2 := by
  intro ws
  induction ws with
  | nil => rfl
  | cons w rest ih =>
      simp only [Env.withOvn] at ih ⊢
      simp only [joinWorkersLoop]
      cases strVal? (e.getIp w.name) with
      | none => rfl
      | some ip =>
          by_cases hj : e.joinOk w.name = true
          · simp [hj, ih]
          · have hj' : e.joinOk w.name = false := by
              revert hj; cases e.joinOk w.name <;> simp
            simp [hj']

theorem brexWorkersLoop_indep (e : Env) (p r p' r' : String → Nat → Bool) :
    ∀ ws, brexWorkersLoop (e.withOvn p r) ws = brexWorkersLoop (e.withOvn p' r') ws := by
  intro ws
  induction ws with
  | nil => rfl
  | cons w rest ih =>
      simp only [Env.withOvn] at ih ⊢
      simp only [brexWorkersLoop]
      rw [ih]

theorem setupCluster_ovn_indep (cfg : Config) (e : Env) (p r p' r' : String → Nat → Bool)
    (c : String) (ms ws : List VmCfg) :
    (setupCluster cfg (e.withOvn p r) c ms ws).results =
        (setupCluster cfg (e.withOvn p' r') c ms ws).results ∧
      (setupCluster cfg (e.withOvn p r) c ms ws).ok =
        (setupCluster cfg (e.withOvn p' r') c ms ws).ok := by
  unfold setupCluster
  cases get_cluster_config cfg c with
  | none => exact ⟨rfl, rfl⟩
  | some cc =>
    cases ms with
    | nil => exact ⟨rfl, rfl⟩
    | cons m ms' =>
      simp only [Env.withOvn]
      cases strVal? (e.getIp m.name) with
      | none => exact ⟨rfl, rfl⟩
      | some mip =>
        cases strVal? m.k8s_node_ip with
        | none => exact ⟨rfl, rfl⟩
        | some kip =>
          have hbrex := brexWorkersLoop_indep e p r p' r' ws
          have hjoin := joinWorkersLoop_ok_indep e p r p' r'
            (lowerStr (cc.cni.getD "flannel")) ws
          simp only [Env.withOvn] at hbrex hjoin
          by_cases hc : (lowerStr (cc.cni.getD "flannel") == "ovn-kubernetes") = true
          · simp only [hc, if_true, if_pos]
            by_cases hbm : e.brexOk m.name = true
            · simp only [hbm, if_true, if_pos, hbrex]
              cases hb2 : (brexWorkersLoop ⟨e.getIp, e.installOk, e.brexOk, e.initMaster,
                  e.ovnCniOk, e.flannelOk, e.multusOk, e.joinOk, p', r'⟩ ws).2 with
              | false => simp
              | true =>
                  simp only [Bool.true_eq_false, if_false]
                  cases e.initMaster m.name with
                  | none => exact ⟨rfl, rfl⟩
                  | some jc =>
                      simp only
                      by_cases hcni2 : e.ovnCniOk m.name = true
                      · simp only [hcni2]
                        by_cases hjp : (!ws.isEmpty && !(jc == "")) = true
                        · simp only [hjp, if_true, if_pos, hjoin]
                          cases (joinWorkersLoop ⟨e.getIp, e.installOk, e.brexOk, e.initMaster,
                              e.ovnCniOk, e.flannelOk, e.multusOk, e.joinOk, p', r'⟩
                              (lowerStr (cc.cni.getD "flannel")) ws).2 <;> simp
                        · have : (!ws.isEmpty && !(jc == "")) = false := by
                            revert hjp; cases (!ws.isEmpty && !(jc == "")) <;> simp
                          simp [this]
                      · have : e.ovnCniOk m.name = false := by
                          revert hcni2; cases e.ovnCniOk m.name <;> simp
                        simp [this]
            · have hbm' : e.brexOk m.name = false := by
                revert hbm; cases e.brexOk m.name <;> simp
              simp [hbm']
          · have hc' : (lowerStr (cc.cni.getD "flannel") == "ovn-kubernetes") = false := by
              revert hc; cases (lowerStr (cc.cni.getD "flannel") == "ovn-kubernetes") <;> simp
            simp only [hc', Bool.false_eq_true, if_false, Bool.true_eq_false]
            cases e.initMaster m.name with
            | none => exact ⟨rfl, rfl⟩
            | some jc =>
                simp only
                by_cases hfl : (lowerStr (cc.cni.getD "flannel") == "flannel") = true
                · simp only [hfl, if_true, if_pos]
                  by_cases hf : e.flannelOk m.name = true
                  · simp only [hf, if_true, if_pos]
                    by_cases hm2 : e.multusOk m.name = true
                    · simp only [hm2]
                      by_cases hjp : (!ws.isEmpty && !(jc == "")) = true
                      · simp only [hjp, if_true, if_pos, hjoin]
                        cases (joinWorkersLoop ⟨e.getIp, e.installOk, e.brexOk, e.initMaster,
                            e.ovnCniOk, e.flannelOk, e.multusOk, e.joinOk, p', r'⟩
                            (lowerStr (cc.cni.getD "flannel")) ws).2 <;> simp
                      · have : (!ws.isEmpty && !(jc == "")) = false := by
                          revert hjp; cases (!ws.isEmpty && !(jc == "")) <;> simp
                        simp [this]
                    · have : e.multusOk m.name = false := by
                        revert hm2; cases e.multusOk m.name <;> simp
                      simp [this]
                  · have hf' : e.flannelOk m.name = false := by
                      revert hf; cases e.flannelOk m.name <;> simp
                    simp [hf']
                · have hfl' : (lowerStr (cc.cni.getD "flannel") == "flannel") = false := by
                    revert hfl; cases (lowerStr (cc.cni.getD "flannel") == "flannel") <;> simp
                  simp [hfl']

theorem setupClustersGo_ovn_indep (cfg : Config) (e : Env) (p r p' r' : String → Nat → Bool) :
    ∀ groups, (setupClustersGo cfg (e.withOvn p r) groups).results =
        (setupClustersGo cfg (e.withOvn p' r') groups).results ∧
      (setupClustersGo cfg (e.withOvn p r) groups).ok =
        (setupClustersGo cfg (e.withOvn p' r') groups).ok := by
  intro groups
  induction groups with
  | nil => exact ⟨rfl, rfl⟩
  | cons g rest ih =>
      obtain ⟨c, ms, ws⟩ := g
      obtain ⟨h1, h2⟩ := setupCluster_ovn_indep cfg e p r p' r' c ms ws
      simp only [setupClustersGo]
      cases hok : (setupCluster cfg (e.withOvn p r) c ms ws).ok
      · have hok2 : (setupCluster cfg (e.withOvn p' r') c ms ws).ok = false := by
          rw [← h2, hok]
        simp only [hok, hok2, Bool.false_eq_true, if_false]
        exact ⟨h1, trivial⟩
      · have hok2 : (setupCluster cfg (e.withOvn p' r') c ms ws).ok = true := by
          rw [← h2, hok]
        simp only [hok, hok2, if_true, if_pos]
        exact ⟨by rw [h1, ih.1], ih.2⟩

theorem setup_ovn_indep (cfg : Config) (e : Env) (p r p' r' : String → Nat → Bool) :
    (setup_k8s_cluster cfg (e.withOvn p r)).results =
        (setup_k8s_cluster cfg (e.withOvn p' r')).results ∧
      (setup_k8s_cluster cfg (e.withOvn p r)).ok =
        (setup_k8s_cluster cfg (e.withOvn p' r')).ok := by
  unfold setup_k8s_cluster
  cases hg : (groupVms cfg.vms).isEmpty
  · simp only [hg, Bool.false_eq_true, if_false]
    exact setupClustersGo_ovn_indep cfg e p r p' r' (groupVms cfg.vms)
  · simp [hg]

/-- C6: the OVN worker wait/approve cycle.  (i) The cycle succeeds
only if on some attempt the worker's ovnkube-node pod was found and
all of its containers reported ready (contrapositive: if no attempt
ever sees both, the call made at the source's fixed default of
`max_retries = 3` returns `False`).  (ii) The cycle makes between 1
and 3 wait-for-pod attempts, and when the pod is not immediately
present on the first attempt it retries, making at least 2.  (iii)
Retry exhaustion is not cluster-fatal: the results and the boolean
outcome of `setup_k8s_cluster` are entirely independent of the OVN
wait oracles (the call site at worker join ignores the cycle's return
value). -/
theorem C6_ovn_wait_cycle :
    (∀ (env : Env) (w : String),
        (∀ a, (env.ovnPodFound w a && env.ovnAllReady w a) = false) →
        (wait_for_ovnkube_node env w 3).2 = false) ∧
      (∀ (env : Env) (w : String),
        countPodWaits w (wait_for_ovnkube_node env w 3).1 ≤ 3 ∧
          1 ≤ countPodWaits w (wait_for_ovnkube_node env w 3).1 ∧
          (env.ovnPodFound w 1 = false →
            2 ≤ countPodWaits w (wait_for_ovnkube_node env w 3).1)) ∧
      (∀ (cfg : Config) (e : Env) (p r p' r' : String → Nat → Bool),
        (setup_k8s_cluster cfg (e.withOvn p r)).results =
            (setup_k8s_cluster cfg (e.withOvn p' r')).results ∧
          (setup_k8s_cluster cfg (e.withOvn p r)).ok =
            (setup_k8s_cluster cfg (e.withOvn p' r')).ok) := by
  refine ⟨fun env w h => ovnWaitLoop_false_of_never_ready env w 3 3 h,
    fun env w => ⟨ovnWaitLoop_count_le env w 3 3, ovnWaitLoop_count_ge_one env w 3 3 (by omega),
      fun hp1 => ?_⟩,
    fun cfg e p r p' r' => setup_ovn_indep cfg e p r p' r'⟩
  show 2 ≤ countPodWaits w (ovnWaitLoop env w 3 3).1
  have h33 : ovnWaitLoop env w 3 3 =
      (Ev.waitOvnPod w 1 :: (ovnWaitLoop env w 3 2).1, (ovnWaitLoop env w 3 2).2) := by
    have hs := ovnWaitLoop_succ_not_found env w 3 2 (by simpa using hp1)
    simpa using hs
  rw [h33]
  show 2 ≤ countPodWaits w (Ev.waitOvnPod w 1 :: (ovnWaitLoop env w 3 2).1)
  have hrest := ovnWaitLoop_count_ge_one env w 3 2 (by omega)
  have hcons : countPodWaits w (Ev.waitOvnPod w 1 :: (ovnWaitLoop env w 3 2).1) =
      countPodWaits w (ovnWaitLoop env w 3 2).1 + 1 := by
    simp [countPodWaits, isPodWaitFor]
  omega

/-- An environment whose OVN containers never all become ready, and
whose pod for worker `wx` only appears on attempt 2. -/
def envOvnLate : Env :=
  ⟨fun n => some ("192.168.122." ++ n), fun _ => true, fun _ => true,
   fun _ => some "kubeadm join 10.0.10.1:6443 --token abcdef.0123456789abcdef",
   fun _ => true, fun _ => true, fun _ => true, fun _ => true,
   fun _ a => !(a == 1), fun _ _ => false⟩

theorem C6_ovn_wait_cycle_witness :
    (wait_for_ovnkube_node envOvnLate "wx" 3).2 = false ∧
      countPodWaits "wx" (wait_for_ovnkube_node envOvnLate "wx" 3).1 ≤ 3 ∧
      2 ≤ countPodWaits "wx" (wait_for_ovnkube_node envOvnLate "wx" 3).1 :=
  ⟨C6_ovn_wait_cycle.1 envOvnLate "wx" (fun _ => Bool.and_false _),
    (C6_ovn_wait_cycle.2.1 envOvnLate "wx").1,
    (C6_ovn_wait_cycle.2.1 envOvnLate "wx").2.2 rfl⟩

/-! ### C8: the bootstrap master and the advertise address

We characterize the grouping loop: the master list of the group for a
cluster key `c` is exactly the declaration-ordered filter of
`config['vms']`, so the bootstrap master (`master_vms[0]`) is the
first VM, in declaration order, with a truthy role/cluster, cluster
`c` and role `master`.  The `kubeadm init` event then carries the
configured `k8s_node_ip` as the advertise address and the
`get_vm_ip_with_retry`-resolved management address only as the ssh
transport address. -/

/-- Is this VM inserted into `clusters_vms` at all? -/
def insertable (v : VmCfg) : Bool := pyTruthyStr v.k8s_role && pyTruthyStr v.k8s_cluster

/-- The grouping key of a VM. -/
def clusterKey (v : VmCfg) : String := v.k8s_cluster.getD ""

/-- The contribution of one VM to a group's master list. -/
def mTag (v : VmCfg) : List VmCfg := if v.k8s_role == some "master" then [v] else []

/-- The contribution of one VM to a group's worker list. -/
def wTag (v : VmCfg) : List VmCfg := if v.k8s_role == some "worker" then [v] else []

/-- Is `v` grouped as a master of cluster `c`? -/
def masterPred (c : String) (v : VmCfg) : Bool :=
  insertable v && (clusterKey v == c) && (v.k8s_role == some "master")

/-- Is `v` grouped as a worker of cluster `c`? -/
def workerPred (c : String) (v : VmCfg) : Bool :=
  insertable v && (clusterKey v == c) && (v.k8s_role == some "worker")

/-- Lookup of a cluster's group. -/
def findGroup (groups : List (String × List VmCfg × List VmCfg)) (c : String) :
    Option (String × List VmCfg × List VmCfg) :=
  groups.find? (fun g => g.1 == c)
theorem findGroup_cons (a : String) (ms ws : List VmCfg)
    (rest : List (String × List VmCfg × List VmCfg)) (c : String) :
    findGroup ((a, ms, ws) :: rest) c = if a = c then some (a, ms, ws) else findGroup rest c := by
  by_cases h : a = c
  · have hb : (a == c) = true := beq_iff_eq.mpr h
    simp [findGroup, List.find?, hb, h]
  · have hb : (a == c) = false := by
      cases hbc : a == c
      · rfl
      · exact absurd (eq_of_beq hbc) h
    simp [findGroup, List.find?, hb, h]

theorem addVm_nil (k : String) (v : VmCfg) :
    addVmToGroups [] k v = [(k, mTag v, wTag v)] := rfl

theorem addVm_cons (a : String) (ms ws : List VmCfg)
    (rest : List (String × List VmCfg × List VmCfg)) (k : String) (v : VmCfg) :
    addVmToGroups ((a, ms, ws) :: rest) k v =
      if a = k then (a, ms ++ mTag v, ws ++ wTag v) :: rest
      else (a, ms, ws) :: addVmToGroups rest k v := by
  by_cases h : a = k
  · have hb : (a == k) = true := beq_iff_eq.mpr h
    simp [addVmToGroups, hb, h, mTag, wTag]
  · have hb : (a == k) = false := by
      cases hbc : a == k
      · rfl
      · exact absurd (eq_of_beq hbc) h
    simp [addVmToGroups, hb, h]

theorem findGroup_addVm (k : String) (v : VmCfg) :
    ∀ groups c, findGroup (addVmToGroups groups k v) c =
      if c = k then
        (findGroup groups k).elim (some (k, mTag v, wTag v))
          (fun g => some (g.1, g.2.1 ++ mTag v, g.2.2 ++ wTag v))
      else findGroup groups c := by
  intro groups
  induction groups with
  | nil =>
      intro c
      rw [addVm_nil, findGroup_cons]
      by_cases hc : c = k
      · subst hc
        simp [findGroup]
      · rw [if_neg (fun h => hc h.symm), if_neg hc]
  | cons g rest ih =>
      obtain ⟨a, ms, ws⟩ := g
      intro c
      rw [addVm_cons]
      by_cases hak : a = k
      · subst hak
        rw [if_pos rfl]
        simp only [findGroup_cons]
        by_cases hc : c = a
        · subst hc
          simp
        · rw [if_neg (fun h => hc h.symm), if_neg (fun h => hc h), if_neg (fun h => hc h.symm)]
      · rw [if_neg hak]
        simp only [findGroup_cons]
        rw [ih c]
        by_cases hc : c = k
        · subst hc
          simp [hak]
        · simp [hc]

/-- Keys of the grouping, in insertion order. -/
def keysOf (groups : List (String × List VmCfg × List VmCfg)) : List String :=
  groups.map (fun g => g.1)

theorem keysOf_addVm (k : String) (v : VmCfg) :
    ∀ groups, keysOf (addVmToGroups groups k v) =
      if k ∈ keysOf groups then keysOf groups else keysOf groups ++ [k] := by
  intro groups
  induction groups with
  | nil => simp [addVm_nil, keysOf]
  | cons g rest ih =>
      obtain ⟨a, ms, ws⟩ := g
      rw [addVm_cons]
      by_cases hak : a = k
      · subst hak
        rw [if_pos rfl]
        simp [keysOf]
      · rw [if_neg hak]
        simp only [keysOf, List.map_cons] at ih ⊢
        rw [ih]
        by_cases hk : k ∈ List.map (fun g => g.1) rest
        · rw [if_pos hk, if_pos (by simp [hk])]
        · rw [if_neg hk, if_neg (by simp [List.mem_cons, hk, Ne.symm hak])]
          simp

theorem keysOf_addVm_nodup (k : String) (v : VmCfg)
    (groups : List (String × List VmCfg × List VmCfg))
    (h : (keysOf groups).Nodup) : (keysOf (addVmToGroups groups k v)).Nodup := by
  rw [keysOf_addVm]
  by_cases hk : k ∈ keysOf groups
  · rw [if_pos hk]; exact h
  · rw [if_neg hk]
    simp [List.nodup_append, h, hk]

theorem groupVmsAux_cons_pos (acc : List (String × List VmCfg × List VmCfg)) (v : VmCfg)
    (rest : List VmCfg) (h : insertable v = true) :
    groupVmsAux acc (v :: rest) = groupVmsAux (addVmToGroups acc (clusterKey v) v) rest := by
  show (if insertable v = true then
      groupVmsAux (addVmToGroups acc (clusterKey v) v) rest
    else groupVmsAux acc rest) = _
  rw [if_pos h]

theorem groupVmsAux_cons_neg (acc : List (String × List VmCfg × List VmCfg)) (v : VmCfg)
    (rest : List VmCfg) (h : insertable v = false) :
    groupVmsAux acc (v :: rest) = groupVmsAux acc rest := by
  show (if insertable v = true then
      groupVmsAux (addVmToGroups acc (clusterKey v) v) rest
    else groupVmsAux acc rest) = _
  rw [if_neg (by simp [h])]

theorem groupVmsAux_keys_nodup :
    ∀ vms acc, (keysOf acc).Nodup → (keysOf (groupVmsAux acc vms)).Nodup := by
  intro vms
  induction vms with
  | nil => intro acc h; exact h
  | cons v rest ih =>
      intro acc h
      by_cases hv : insertable v = true
      · rw [groupVmsAux_cons_pos _ _ _ hv]
        exact ih _ (keysOf_addVm_nodup _ _ _ h)
      · have hv' : insertable v = false := by
          cases hb : insertable v
          · rfl
          · exact absurd hb hv
        rw [groupVmsAux_cons_neg _ _ _ hv']
        exact ih _ h

theorem findGroup_of_mem :
    ∀ groups, (keysOf groups).Nodup →
      ∀ c ms ws, (c, ms, ws) ∈ groups → findGroup groups c = some (c, ms, ws) := by
  intro groups
  induction groups with
  | nil => intro _ c ms ws h; simp at h
  | cons g rest ih =>
      obtain ⟨a, ms', ws'⟩ := g
      intro hnd c ms ws hmem
      simp only [keysOf, List.map_cons, List.nodup_cons] at hnd
      rw [findGroup_cons]
      rcases List.mem_cons.mp hmem with heq | htail
      · injection heq with h1 h23
        injection h23 with h2 h3
        subst h1
        subst h2
        subst h3
        rw [if_pos rfl]
      · have hkey : c ∈ List.map (fun g => g.1) rest :=
          List.mem_map.mpr ⟨(c, ms, ws), htail, rfl⟩
        rw [if_neg (fun h => hnd.1 (by rw [h]; exact hkey))]
        exact ih hnd.2 c ms ws htail

theorem filter_master_cons_pos (c : String) (v : VmCfg) (rest : List VmCfg)
    (hv : insertable v = true) (hc : (clusterKey v == c) = true) :
    (v :: rest).filter (masterPred c) = mTag v ++ rest.filter (masterPred c) := by
  rw [List.filter_cons]
  by_cases hm : (v.k8s_role == some "master") = true
  · rw [if_pos (by simp [masterPred, hv, hc, hm]), mTag, if_pos hm, List.singleton_append]
  · rw [if_neg (by simp [masterPred, hv, hc, hm]), mTag, if_neg hm, List.nil_append]

theorem filter_worker_cons_pos (c : String) (v : VmCfg) (rest : List VmCfg)
    (hv : insertable v = true) (hc : (clusterKey v == c) = true) :
    (v :: rest).filter (workerPred c) = wTag v ++ rest.filter (workerPred c) := by
  rw [List.filter_cons]
  by_cases hm : (v.k8s_role == some "worker") = true
  · rw [if_pos (by simp [workerPred, hv, hc, hm]), wTag, if_pos hm, List.singleton_append]
  · rw [if_neg (by simp [workerPred, hv, hc, hm]), wTag, if_neg hm, List.nil_append]

theorem filter_master_cons_skip (c : String) (v : VmCfg) (rest : List VmCfg)
    (h : (insertable v && (clusterKey v == c)) = false) :
    (v :: rest).filter (masterPred c) = rest.filter (masterPred c) := by
  have hp : ¬ (masterPred c v = true) := by simp [masterPred, h]
  rw [List.filter_cons, if_neg hp]

theorem filter_worker_cons_skip (c : String) (v : VmCfg) (rest : List VmCfg)
    (h : (insertable v && (clusterKey v == c)) = false) :
    (v :: rest).filter (workerPred c) = rest.filter (workerPred c) := by
  have hp : ¬ (workerPred c v = true) := by simp [workerPred, h]
  rw [List.filter_cons, if_neg hp]

theorem findGroup_groupVmsAux :
    ∀ (vms : List VmCfg) acc c,
      findGroup (groupVmsAux acc vms) c =
        (findGroup acc c).elim
          (if vms.any (fun v => insertable v && (clusterKey v == c)) then
             some (c, vms.filter (masterPred c), vms.filter (workerPred c))
           else none)
          (fun g => some (g.1, g.2.1 ++ vms.filter (masterPred c),
                          g.2.2 ++ vms.filter (workerPred c))) := by
  intro vms
  induction vms with
  | nil =>
      intro acc c
      simp only [groupVmsAux, List.any_nil, List.filter_nil, List.append_nil,
        Bool.false_eq_true, if_false]
      cases h : findGroup acc c with
      | none => simp
      | some g => simp
  | cons v rest ih =>
      intro acc c
      by_cases hv : insertable v = true
      · rw [groupVmsAux_cons_pos _ _ _ hv, ih, findGroup_addVm]
        by_cases hck : c = clusterKey v
        · rw [if_pos hck, ← hck]
          have hcb : (clusterKey v == c) = true := beq_iff_eq.mpr hck.symm
          rw [filter_master_cons_pos c v rest hv hcb, filter_worker_cons_pos c v rest hv hcb]
          have hany : (v :: rest).any (fun v => insertable v && (clusterKey v == c)) = true := by
            simp [List.any_cons, hv, hcb]
          rw [hany, if_pos rfl]
          cases hfg : findGroup acc c with
          | none => simp
          | some g => simp [List.append_assoc]
        · rw [if_neg hck]
          have hcb : (clusterKey v == c) = false := by
            cases hb : clusterKey v == c
            · rfl
            · exact absurd (eq_of_beq hb).symm hck
          rw [filter_master_cons_skip c v rest (by simp [hcb]),
            filter_worker_cons_skip c v rest (by simp [hcb])]
          have hany : (v :: rest).any (fun v => insertable v && (clusterKey v == c)) =
              rest.any (fun v => insertable v && (clusterKey v == c)) := by
            simp [List.any_cons, hcb]
          rw [hany]
      · have hv' : insertable v = false := by
          cases hb : insertable v
          · rfl
          · exact absurd hb hv
        rw [groupVmsAux_cons_neg _ _ _ hv', ih]
        rw [filter_master_cons_skip c v rest (by simp [hv']),
          filter_worker_cons_skip c v rest (by simp [hv'])]
        have hany : (v :: rest).any (fun v => insertable v && (clusterKey v == c)) =
            rest.any (fun v => insertable v && (clusterKey v == c)) := by
          simp [List.any_cons, hv']
        rw [hany]

/-- Any group produced by the grouping loop holds exactly the
declaration-ordered masters and workers of its cluster key. -/
theorem mem_groupVms (vms : List VmCfg) (c : String) (ms ws : List VmCfg)
    (h : (c, ms, ws) ∈ groupVms vms) :
    ms = vms.filter (masterPred c) ∧ ws = vms.filter (workerPred c) := by
  have hnd : (keysOf (groupVms vms)).Nodup :=
    groupVmsAux_keys_nodup vms [] (by simp [keysOf])
  have hf := findGroup_of_mem (groupVms vms) hnd c ms ws h
  rw [groupVms, findGroup_groupVmsAux vms [] c] at hf
  have hnil : findGroup ([] : List (String × List VmCfg × List VmCfg)) c = none := rfl
  rw [hnil] at hf
  simp only [Option.elim] at hf
  by_cases hany : vms.any (fun v => insertable v && (clusterKey v == c)) = true
  · rw [if_pos hany] at hf
    injection hf with h0
    injection h0 with h1 h23
    injection h23 with h2 h3
    exact ⟨h2.symm, h3.symm⟩
  · rw [if_neg hany] at hf
    exact absurd hf (by simp)

theorem brexWorkersLoop_no_init (env : Env) (c n adv ssh : String) :
    ∀ ws, Ev.initMaster c n adv ssh ∉ (brexWorkersLoop env ws).1 := by
  intro ws
  induction ws with
  | nil => simp [brexWorkersLoop]
  | cons w rest ih =>
      simp only [brexWorkersLoop]
      cases hsv : strVal? (env.getIp w.name) with
      | none => simp
      | some ip =>
          by_cases hb : env.brexOk w.name = true
          · simp [hb, List.mem_cons, ih]
          · have hb' : env.brexOk w.name = false := by
              cases hx : env.brexOk w.name
              · rfl
              · exact absurd hx hb
            simp [hb']

theorem ovnWaitLoop_no_init (env : Env) (c n adv ssh : String) (worker : String) (maxR : Nat) :
    ∀ fuel, Ev.initMaster c n adv ssh ∉ (ovnWaitLoop env worker maxR fuel).1 := by
  intro fuel
  induction fuel with
  | zero => simp [ovnWaitLoop]
  | succ f ih =>
      simp only [ovnWaitLoop]
      by_cases hp : env.ovnPodFound worker (maxR - f) = true
      · by_cases hr : env.ovnAllReady worker (maxR - f) = true
        · simp [hp, hr]
        · have hr' : env.ovnAllReady worker (maxR - f) = false := by
            cases hx : env.ovnAllReady worker (maxR - f)
            · rfl
            · exact absurd hx hr
          simp [hp, hr', ih]
      · have hp' : env.ovnPodFound worker (maxR - f) = false := by
          cases hx : env.ovnPodFound worker (maxR - f)
          · rfl
          · exact absurd hx hp
        simp [hp', ih]

theorem postJoinEvents_no_init (env : Env) (c n adv ssh : String) (cni worker : String) :
    Ev.initMaster c n adv ssh ∉ postJoinEvents env cni worker := by
  rw [postJoinEvents]
  by_cases h : (cni == "ovn-kubernetes") = true
  · rw [if_pos h]
    exact ovnWaitLoop_no_init env c n adv ssh worker 3 3
  · rw [if_neg h]
    simp

theorem joinWorkersLoop_no_init (env : Env) (c n adv ssh : String) (cni : String) :
    ∀ ws, Ev.initMaster c n adv ssh ∉ (joinWorkersLoop env cni ws).1 := by
  intro ws
  induction ws with
  | nil => simp [joinWorkersLoop]
  | cons w rest ih =>
      simp only [joinWorkersLoop]
      cases hsv : strVal? (env.getIp w.name) with
      | none => simp
      | some ip =>
          by_cases hj : env.joinOk w.name = true
          · simp [hj, List.mem_cons, List.mem_append, ih,
              postJoinEvents_no_init env c n adv ssh cni w.name]
          · have hj' : env.joinOk w.name = false := by
              cases hx : env.joinOk w.name
              · rfl
              · exact absurd hx hj
            simp [hj']

/-- Inversion of the per-cluster setup: a `kubeadm init` event in the
trace can only come from the first master of the cluster, with the
configured `k8s_node_ip` as the advertise address and the resolved
management address as the ssh address. -/
theorem setupCluster_initMaster_inv (cfg : Config) (env : Env) (cname : String)
    (ms ws : List VmCfg) (c n adv ssh : String)
    (h : Ev.initMaster c n adv ssh ∈ (setupCluster cfg env cname ms ws).trace) :
    c = cname ∧ ∃ m, ms.head? = some m ∧ n = m.name ∧
      strVal? m.k8s_node_ip = some adv ∧ strVal? (env.getIp m.name) = some ssh := by
  unfold setupCluster at h
  split at h
  · simp at h
  · split at h
    · simp at h
    · rename_i m mrest
      split at h
      · simp at h
      · rename_i mip hmip
        split at h
        · simp at h
        · rename_i kip hkip
          simp only [] at h
          repeat' split at h
          all_goals
            first
              | (simp [List.mem_cons, List.mem_append,
                   brexWorkersLoop_no_init env c n adv ssh,
                   joinWorkersLoop_no_init env c n adv ssh] at h
                 done)
              | (simp [List.mem_cons, List.mem_append,
                   brexWorkersLoop_no_init env c n adv ssh,
                   joinWorkersLoop_no_init env c n adv ssh] at h
                 obtain ⟨h1, h2, h3, h4⟩ := h
                 subst h3
                 subst h4
                 exact ⟨h1, m, rfl, h2, hkip, hmip⟩)

theorem setupClustersGo_initMaster_inv (cfg : Config) (env : Env) (c n adv ssh : String) :
    ∀ groups, Ev.initMaster c n adv ssh ∈ (setupClustersGo cfg env groups).trace →
      ∃ g, g ∈ groups ∧
        Ev.initMaster c n adv ssh ∈ (setupCluster cfg env g.1 g.2.1 g.2.2).trace := by
  intro groups
  induction groups with
  | nil => intro h; simp [setupClustersGo] at h
  | cons g rest ih =>
      obtain ⟨a, ms, ws⟩ := g
      intro h
      simp only [setupClustersGo] at h
      by_cases hok : (setupCluster cfg env a ms ws).ok = true
      · rw [if_pos hok] at h
        rcases List.mem_append.mp h with h1 | h2
        · exact ⟨(a, ms, ws), List.mem_cons_self _ _, h1⟩
        · obtain ⟨g', hg', hmem⟩ := ih h2
          exact ⟨g', List.mem_cons_of_mem _ hg', hmem⟩
      · rw [if_neg hok] at h
        exact ⟨(a, ms, ws), List.mem_cons_self _ _, h⟩

/-- C8: for every cluster, every control-plane bootstrap event the
orchestrator emits runs on the first master-role VM of that cluster in
declaration order, passes that VM's configured `k8s_node_ip` as the
`--apiserver-advertise-address`, and uses the separately resolved
management address (`get_vm_ip_with_retry`, here `env.getIp`) only as
the ssh transport address of the `kubeadm init` step. -/
theorem C8_first_master_bootstrap (cfg : Config) (env : Env) (c n adv ssh : String)
    (h : Ev.initMaster c n adv ssh ∈ (setup_k8s_cluster cfg env).trace) :
    ((cfg.vms.filter (masterPred c)).head?.map (fun v => v.name) = some n) ∧
      ((cfg.vms.filter (masterPred c)).head?.bind (fun v => strVal? v.k8s_node_ip) = some adv) ∧
      strVal? (env.getIp n) = some ssh := by
  rw [setup_k8s_cluster] at h
  by_cases hE : (groupVms cfg.vms).isEmpty = true
  · rw [if_pos hE] at h
    simp at h
  · rw [if_neg hE] at h
    obtain ⟨g, hg, hmem⟩ :=
      setupClustersGo_initMaster_inv cfg env c n adv ssh (groupVms cfg.vms) h
    obtain ⟨hc, m, hhead, hn, hadv, hssh⟩ :=
      setupCluster_initMaster_inv cfg env g.1 g.2.1 g.2.2 c n adv ssh hmem
    have hms := (mem_groupVms cfg.vms g.1 g.2.1 g.2.2 (by exact hg)).1
    subst hc
    rw [← hms, hhead]
    refine ⟨by simp [hn], by simp [hadv], ?_⟩
    rw [hn]
    exact hssh

/-- A two-cluster configuration whose `alpha` cluster declares a
worker before its two masters; the first master by declaration order
is `m1`, with distinct cluster-plane and management addresses. -/
def cfgC8 : Config :=
  ⟨[⟨"w1", some "vm", none, some "worker", some "alpha", none⟩,
    ⟨"m1", some "vm", none, some "master", some "alpha", some "10.0.10.1"⟩,
    ⟨"m2", some "vm", none, some "master", some "alpha", some "10.0.10.2"⟩],
   [⟨"alpha", some "10.244.0.0/16", some "10.96.0.0/12", some "flannel"⟩]⟩

/-- An environment where every remote step succeeds and the
management address of VM `x` resolves to `192.168.122.` ++ `x`. -/
def envC8 : Env :=
  ⟨fun v => some ("192.168.122." ++ v), fun _ => true, fun _ => true,
   fun _ => some "kubeadm join 192.168.122.m1:6443 --token abcdef.0123456789abcdef",
   fun _ => true, fun _ => true, fun _ => true, fun _ => true,
   fun _ _ => true, fun _ _ => true⟩

theorem C8_first_master_bootstrap_witness :
    (Ev.initMaster "alpha" "m1" "10.0.10.1" "192.168.122.m1" ∈
        (setup_k8s_cluster cfgC8 envC8).trace) ∧
      ((cfgC8.vms.filter (masterPred "alpha")).head?.map (fun v => v.name) = some "m1") ∧
      ((cfgC8.vms.filter (masterPred "alpha")).head?.bind (fun v => strVal? v.k8s_node_ip) =
        some "10.0.10.1") ∧
      strVal? (envC8.getIp "m1") = some "192.168.122.m1" :=
  ⟨by decide,
   C8_first_master_bootstrap cfgC8 envC8 "alpha" "m1" "10.0.10.1" "192.168.122.m1" (by decide)⟩

/-! ## C7: manifest order of the OVN-Kubernetes install

Two code paths install OVN-Kubernetes.  `_install_ovn_kubernetes` in
`install_software.py` runs a fixed shell script of `kubectl` commands
on the master; `install_ovn_kubernetes` in `ovn_kubernetes_deploy.py`
applies two ordered manifest lists with `apply_manifests` (a plain
`kubectl apply` loop with no waiting).  Both are modelled as lists of
cluster actions in source order. -/

/-- One `kubectl` action against the cluster. -/
inductive KAct where
  | create (manifest : String) : KAct
  | apply (manifest : String) : KAct
  | rolloutStatus (kind res : String) : KAct
  | waitPodReady (label : String) : KAct
  | approveCsrs : KAct
  | deleteKubeProxy : KAct
  | labelMasterNodes : KAct
deriving DecidableEq

/-- The `kubectl` actions of the `ovnk_install` script of
`_install_ovn_kubernetes`, in script order. -/
def ovnk_install_actions : List KAct :=
  [KAct.create "ovn-setup.yaml",
   KAct.create "rbac-ovnkube-master.yaml",
   KAct.create "rbac-ovnkube-db.yaml",
   KAct.create "rbac-ovnkube-node.yaml",
   KAct.create "rbac-ovnkube-identity.yaml",
   KAct.create "ovnkube-identity.yaml",
   KAct.create "ovnkube-db.yaml",
   KAct.rolloutStatus "deployment" "ovnkube-db",
   KAct.create "ovnkube-master.yaml",
   KAct.rolloutStatus "deployment" "ovnkube-master",
   KAct.waitPodReady "name=ovnkube-master",
   KAct.create "ovnkube-node.yaml",
   KAct.approveCsrs,
   KAct.rolloutStatus "daemonset" "ovnkube-node",
   KAct.deleteKubeProxy]

/-- The first, ordered manifest list of
`ovn_kubernetes_deploy.install_ovn_kubernetes`. -/
def deploy_manifests : List String :=
  ["k8s.ovn.org_egressfirewalls.yaml",
   "k8s.ovn.org_egressips.yaml",
   "k8s.ovn.org_egressqoses.yaml",
   "k8s.ovn.org_egressservices.yaml",
   "k8s.ovn.org_adminpolicybasedexternalroutes.yaml",
   "k8s.ovn.org_networkqoses.yaml",
   "k8s.ovn.org_userdefinednetworks.yaml",
   "k8s.ovn.org_clusteruserdefinednetworks.yaml",
   "k8s.ovn.org_routeadvertisements.yaml",
   "k8s.ovn.org_clusternetworkconnects.yaml",
   "https://raw.githubusercontent.com/kubernetes-sigs/network-policy-api/v0.1.5/config/crd/experimental/policy.networking.k8s.io_adminnetworkpolicies.yaml",
   "https://raw.githubusercontent.com/kubernetes-sigs/network-policy-api/v0.1.5/config/crd/experimental/policy.networking.k8s.io_baselineadminnetworkpolicies.yaml",
   "ovn-setup.yaml",
   "rbac-ovnkube-identity.yaml",
   "rbac-ovnkube-cluster-manager.yaml",
   "rbac-ovnkube-master.yaml",
   "rbac-ovnkube-node.yaml",
   "rbac-ovnkube-db.yaml"]

/-- The `global_zone_manifests` list of
`ovn_kubernetes_deploy.install_ovn_kubernetes`. -/
def global_zone_manifests : List String :=
  ["ovs-node.yaml",
   "ovnkube-db.yaml",
   "ovnkube-identity.yaml",
   "ovnkube-master.yaml",
   "ovnkube-node.yaml"]

/-- The cluster actions of `install_ovn_kubernetes`: the first
manifest list, the master labelling, then the global zone list;
`apply_manifests` performs one `kubectl apply` per entry and nothing
else. -/
def install_ovn_kubernetes_actions : List KAct :=
  deploy_manifests.map KAct.apply ++
    KAct.labelMasterNodes :: global_zone_manifests.map KAct.apply

/-- The custom resource definition manifests of the deploy list. -/
def ovn_crd_manifests : List String :=
  ["k8s.ovn.org_egressfirewalls.yaml",
   "k8s.ovn.org_egressips.yaml",
   "k8s.ovn.org_egressqoses.yaml",
   "k8s.ovn.org_egressservices.yaml",
   "k8s.ovn.org_adminpolicybasedexternalroutes.yaml",
   "k8s.ovn.org_networkqoses.yaml",
   "k8s.ovn.org_userdefinednetworks.yaml",
   "k8s.ovn.org_clusteruserdefinednetworks.yaml",
   "k8s.ovn.org_routeadvertisements.yaml",
   "k8s.ovn.org_clusternetworkconnects.yaml",
   "https://raw.githubusercontent.com/kubernetes-sigs/network-policy-api/v0.1.5/config/crd/experimental/policy.networking.k8s.io_adminnetworkpolicies.yaml",
   "https://raw.githubusercontent.com/kubernetes-sigs/network-policy-api/v0.1.5/config/crd/experimental/policy.networking.k8s.io_baselineadminnetworkpolicies.yaml"]

/-- The role-based access control manifests. -/
def ovn_rbac_manifests : List String :=
  ["rbac-ovnkube-identity.yaml",
   "rbac-ovnkube-cluster-manager.yaml",
   "rbac-ovnkube-master.yaml",
   "rbac-ovnkube-node.yaml",
   "rbac-ovnkube-db.yaml"]

/-- The manifest an action creates or applies, if any. -/
def manifestOf : KAct → Option String
  | KAct.create m => some m
  | KAct.apply m => some m
  | _ => none

/-- Does this action create or apply a custom resource definition? -/
def isCrdAct (a : KAct) : Bool :=
  match manifestOf a with
  | some m => ovn_crd_manifests.contains m
  | none => false

/-- Does this action create or apply a role-based access control
manifest? -/
def isRbacAct (a : KAct) : Bool :=
  match manifestOf a with
  | some m => ovn_rbac_manifests.contains m
  | none => false

/-- Is this action a wait (rollout status or pod readiness)? -/
def isWaitAct : KAct → Bool
  | KAct.rolloutStatus _ _ => true
  | KAct.waitPodReady _ => true
  | _ => false

/-- Index of the first occurrence of `a` in `l`. -/
def firstIdx (l : List KAct) (a : KAct) : Option Nat := l.findIdx? (fun x => x == a)

/-- Both actions occur, and the first occurrence of `a` precedes the
first occurrence of `b`. -/
def beforeB (l : List KAct) (a b : KAct) : Bool :=
  match firstIdx l a, firstIdx l b with
  | some i, some j => decide (i < j)
  | _, _ => false

/-- `beforeB` holds for every consecutive pair of the chain. -/
def chainBefore (l : List KAct) : List KAct → Bool
  | a :: b :: rest => beforeB l a b && chainBefore l (b :: rest)
  | _ => true

/-- After any action satisfying `q`, no action satisfying `p` occurs. -/
def noneAfter (p q : KAct → Bool) : List KAct → Bool
  | [] => true
  | a :: rest => (!q a || rest.all (fun x => !p x)) && noneAfter p q rest

/-- C7 counterexample: in the `install_ovn_kubernetes` deployment
path, the database manifest is applied before the controller manifest,
but the path performs no wait of any kind (no rollout status, no pod
readiness wait) — so the database is *not* waited on before the
controller is applied there. -/
theorem C7_kind_path_applies_without_wait :
    beforeB install_ovn_kubernetes_actions
        (KAct.apply "ovnkube-db.yaml") (KAct.apply "ovnkube-master.yaml") = true ∧
      install_ovn_kubernetes_actions.all (fun a => !isWaitAct a) = true := by
  decide

/-- C7 (amended): both install paths apply the database manifest
before the controller and the controller before the node daemonset.
In the `_install_ovn_kubernetes` script the role-based access control
manifests come first (no custom resource definition is applied there
at all), the database rollout is waited on before the controller is
created, and the controller rollout is waited on before the node
daemonset is created.  In the `install_ovn_kubernetes` deployment path
the custom resource definitions all precede the role-based access
control manifests, which all precede the database manifest; the
database/controller/node order holds, but (see the counterexample) no
wait separates them. -/
theorem C7_manifest_order :
    (chainBefore ovnk_install_actions
        [KAct.create "ovn-setup.yaml",
         KAct.create "rbac-ovnkube-master.yaml",
         KAct.create "rbac-ovnkube-db.yaml",
         KAct.create "rbac-ovnkube-node.yaml",
         KAct.create "rbac-ovnkube-identity.yaml",
         KAct.create "ovnkube-db.yaml",
         KAct.rolloutStatus "deployment" "ovnkube-db",
         KAct.create "ovnkube-master.yaml",
         KAct.rolloutStatus "deployment" "ovnkube-master",
         KAct.create "ovnkube-node.yaml"] &&
       ovnk_install_actions.all (fun a => !isCrdAct a) &&
       (noneAfter isCrdAct isRbacAct install_ovn_kubernetes_actions &&
        install_ovn_kubernetes_actions.any isCrdAct &&
        install_ovn_kubernetes_actions.any isRbacAct) &&
       noneAfter isRbacAct (fun a => a == KAct.apply "ovnkube-db.yaml")
         install_ovn_kubernetes_actions &&
       chainBefore install_ovn_kubernetes_actions
        [KAct.apply "ovnkube-db.yaml",
         KAct.apply "ovnkube-master.yaml",
         KAct.apply "ovnkube-node.yaml"]) = true := by
  decide

/-! ## C9: teardown (`cleanup.py` / `deploy.cleanup_all`)

`cleanup_all` runs `cleanup_vms` then `cleanup_networks`
(`vm_utils.py`), which in turn calls `cleanup_ovs_bridge`
(`bridge_utils.py`).  The substrate (libvirt domains, image files,
libvirt networks, OVS bridges) is modelled as lists of existing
resource names; `lookupByName` raising `libvirtError` on a missing
resource corresponds to the absent branch, and every `except` of the
source swallows the error, so each per-resource step yields `removed`
or `alreadyAbsent` and never an error.  Stopping an active resource
and then undefining it collapses to removing it from the state;
libvirt and file operations on present resources are modelled as
succeeding. -/

/-- Existing substrate resources by name. -/
structure Substrate where
  domains : List String
  files : List String
  nets : List String
  bridges : List String
deriving DecidableEq

/-- The outcome of one per-resource cleanup step (the source never
lets an error escape). -/
inductive CleanOutcome where
  | removed : CleanOutcome
  | alreadyAbsent : CleanOutcome
deriving DecidableEq

/-- One entry of `config['networks']`. -/
structure NetCfg where
  name : String
  bridge_name : Option String
  use_ovs : Bool
deriving DecidableEq

def removeStr (l : List String) (s : String) : List String := l.filter (fun x => !(x == s))

def vmDiskFile (vm : String) : String := "/var/lib/libvirt/images/" ++ vm ++ ".qcow2"

def vmIsoFile (vm : String) : String := "/var/lib/libvirt/images/" ++ vm ++ "-cloud-init.iso"

/-- `Path.unlink` guarded by `Path.exists`. -/
def unlinkIfExists (files : List String) (f : String) : List String :=
  if files.contains f then removeStr files f else files

/-- `cleanup_ovs_bridge`: `ovs-vsctl br-exists` then `del-br`;
exceptions are swallowed. -/
def cleanup_ovs_bridge (st : Substrate) (b : String) : Substrate × CleanOutcome :=
  if st.bridges.contains b then
    (⟨st.domains, st.files, st.nets, removeStr st.bridges b⟩, CleanOutcome.removed)
  else (st, CleanOutcome.alreadyAbsent)

/-- One iteration of the `cleanup_vms` loop: look the domain up
(absence raises, caught: nothing else happens), else stop/undefine it
and unlink its disk and cloud-init image if they exist. -/
def cleanup_vm (st : Substrate) (vm : String) : Substrate × CleanOutcome :=
  if st.domains.contains vm then
    (⟨removeStr st.domains vm,
      unlinkIfExists (unlinkIfExists st.files (vmDiskFile vm)) (vmIsoFile vm),
      st.nets, st.bridges⟩, CleanOutcome.removed)
  else (st, CleanOutcome.alreadyAbsent)

/-- `cleanup_vms`: the loop over `config['vms']`. -/
def cleanup_vms (st : Substrate) : List VmCfg → Substrate × List CleanOutcome
  | [] => (st, [])
  | v :: rest =>
      let r := cleanup_vm st v.name
      let r' := cleanup_vms r.1 rest
      (r'.1, r.2 :: r'.2)

/-- Looking up, stopping and undefining one libvirt network; absence
is caught. -/
def cleanup_network_one (st : Substrate) (n : String) : Substrate × CleanOutcome :=
  if st.nets.contains n then
    (⟨st.domains, st.files, removeStr st.nets n, st.bridges⟩, CleanOutcome.removed)
  else (st, CleanOutcome.alreadyAbsent)

/-- `get_host_dpu_pairs` (`cfg_utils.py`): hosts with `type == 'host'`
keyed by name (the Python dict comprehension keeps the last entry for
a duplicate name, hence the `reverse`), paired with each `type ==
'dpu'` VM whose truthy `host` key names a host. -/
def get_host_dpu_pairs (vms : List VmCfg) : List (VmCfg × VmCfg) :=
  let hosts := vms.filter (fun v => v.vmType == some "host")
  let dpus := vms.filter (fun v => v.vmType == some "dpu")
  dpus.filterMap (fun d =>
    match strVal? d.pairedHost with
    | none => none
    | some hn =>
        match hosts.reverse.find? (fun h => h.name == hn) with
        | none => none
        | some h => some (h, d))

/-- The explicit-network half of `cleanup_networks`: remove each
configured network, then its OVS bridge when `use_ovs` and a truthy
`bridge_name` are set. -/
def cleanup_explicit_nets (st : Substrate) : List NetCfg → Substrate × List CleanOutcome
  | [] => (st, [])
  | n :: rest =>
      let r := cleanup_network_one st n.name
      let rb : Substrate × List CleanOutcome :=
        if n.use_ovs then
          match strVal? n.bridge_name with
          | some b =>
              let x := cleanup_ovs_bridge r.1 b
              (x.1, [x.2])
          | none => (r.1, [])
        else (r.1, [])
      let r' := cleanup_explicit_nets rb.1 rest
      (r'.1, r.2 :: rb.2 ++ r'.2)

/-- The host-to-DPU half of `cleanup_networks`: for every pair, remove
the derived network and the derived OVS bridge. -/
def cleanup_h2d_nets (st : Substrate) : List (VmCfg × VmCfg) → Substrate × List CleanOutcome
  | [] => (st, [])
  | p :: rest =>
      let r := cleanup_network_one st (get_host_to_dpu_network_name p.1.name p.2.name)
      let x := cleanup_ovs_bridge r.1 (generate_bridge_name p.1.name p.2.name)
      let r' := cleanup_h2d_nets x.1 rest
      (r'.1, r.2 :: x.2 :: r'.2)

/-- `cleanup_networks`: explicit networks (default `[]`), then the
derived host-to-DPU networks. -/
def cleanup_networks (st : Substrate) (networks : List NetCfg) (vms : List VmCfg) :
    Substrate × List CleanOutcome :=
  let r := cleanup_explicit_nets st networks
  let r' := cleanup_h2d_nets r.1 (get_host_dpu_pairs vms)
  (r'.1, r.2 ++ r'.2)

/-- `cleanup_all` (`deploy.py`): `cleanup_vms` then `cleanup_networks`
over the same configuration. -/
def cleanup_all (st : Substrate) (vms : List VmCfg) (networks : List NetCfg) :
    Substrate × List CleanOutcome :=
  let r := cleanup_vms st vms
  let r' := cleanup_networks r.1 networks vms
  (r'.1, r.2 ++ r'.2)

theorem contains_false_iff (l : List String) (x : String) :
    l.contains x = false ↔ x ∉ l := by
  induction l with
  | nil => simp
  | cons a t ih =>
      rw [List.contains_cons]
      simp [Bool.or_eq_false_iff, beq_eq_false_iff_ne, ih, List.mem_cons, not_or]

theorem removeStr_not_mem_self (l : List String) (s : String) : s ∉ removeStr l s := by
  intro h
  have := List.of_mem_filter h
  simp at this

theorem removeStr_subset (l : List String) (s : String) :
    ∀ x, x ∈ removeStr l s → x ∈ l :=
  fun _ h => List.mem_of_mem_filter h

theorem removeStr_contains_self (l : List String) (s : String) :
    (removeStr l s).contains s = false :=
  (contains_false_iff _ _).mpr (removeStr_not_mem_self l s)

theorem removeStr_contains_absent (l : List String) (s x : String)
    (h : l.contains x = false) : (removeStr l s).contains x = false :=
  (contains_false_iff _ _).mpr
    (fun hm => (contains_false_iff l x).mp h (removeStr_subset l s x hm))

theorem cleanup_vm_fields (st : Substrate) (v : String) :
    (cleanup_vm st v).1.nets = st.nets ∧ (cleanup_vm st v).1.bridges = st.bridges := by
  unfold cleanup_vm
  by_cases h : st.domains.contains v = true
  · rw [if_pos h]; exact ⟨rfl, rfl⟩
  · rw [if_neg h]; exact ⟨rfl, rfl⟩

theorem cleanup_vm_dom_absent (st : Substrate) (v : String) :
    (cleanup_vm st v).1.domains.contains v = false := by
  unfold cleanup_vm
  by_cases h : st.domains.contains v = true
  · rw [if_pos h]; exact removeStr_contains_self _ _
  · rw [if_neg h]; exact Bool.eq_false_iff.mpr h

theorem cleanup_vm_dom_pres (st : Substrate) (v w : String)
    (h : st.domains.contains w = false) : (cleanup_vm st v).1.domains.contains w = false := by
  unfold cleanup_vm
  by_cases hc : st.domains.contains v = true
  · rw [if_pos hc]; exact removeStr_contains_absent _ _ _ h
  · rw [if_neg hc]; exact h

theorem cleanup_vms_fields :
    ∀ vms st, (cleanup_vms st vms).1.nets = st.nets ∧
      (cleanup_vms st vms).1.bridges = st.bridges := by
  intro vms
  induction vms with
  | nil => intro st; exact ⟨rfl, rfl⟩
  | cons v rest ih =>
      intro st
      obtain ⟨h1, h2⟩ := ih (cleanup_vm st v.name).1
      obtain ⟨h3, h4⟩ := cleanup_vm_fields st v.name
      exact ⟨h1.trans h3, h2.trans h4⟩

theorem cleanup_vms_dom_pres :
    ∀ vms st w, st.domains.contains w = false →
      (cleanup_vms st vms).1.domains.contains w = false := by
  intro vms
  induction vms with
  | nil => intro st w h; exact h
  | cons v rest ih =>
      intro st w h
      exact ih _ w (cleanup_vm_dom_pres st v.name w h)

theorem cleanup_vms_dom_absent :
    ∀ vms st v, v ∈ vms → (cleanup_vms st vms).1.domains.contains v.name = false := by
  intro vms
  induction vms with
  | nil => intro st v h; simp at h
  | cons u rest ih =>
      intro st v h
      rcases List.mem_cons.mp h with heq | h'
      · subst heq
        exact cleanup_vms_dom_pres rest _ v.name (cleanup_vm_dom_absent st v.name)
      · exact ih _ v h'

theorem cleanup_network_one_fields (st : Substrate) (n : String) :
    (cleanup_network_one st n).1.domains = st.domains ∧
      (cleanup_network_one st n).1.bridges = st.bridges := by
  unfold cleanup_network_one
  by_cases h : st.nets.contains n = true
  · rw [if_pos h]; exact ⟨rfl, rfl⟩
  · rw [if_neg h]; exact ⟨rfl, rfl⟩

theorem cleanup_network_one_absent (st : Substrate) (n : String) :
    (cleanup_network_one st n).1.nets.contains n = false := by
  unfold cleanup_network_one
  by_cases h : st.nets.contains n = true
  · rw [if_pos h]; exact removeStr_contains_self _ _
  · rw [if_neg h]; exact Bool.eq_false_iff.mpr h

theorem cleanup_network_one_net_pres (st : Substrate) (n x : String)
    (h : st.nets.contains x = false) : (cleanup_network_one st n).1.nets.contains x = false := by
  unfold cleanup_network_one
  by_cases hc : st.nets.contains n = true
  · rw [if_pos hc]; exact removeStr_contains_absent _ _ _ h
  · rw [if_neg hc]; exact h

theorem cleanup_ovs_bridge_fields (st : Substrate) (b : String) :
    (cleanup_ovs_bridge st b).1.domains = st.domains ∧
      (cleanup_ovs_bridge st b).1.nets = st.nets := by
  unfold cleanup_ovs_bridge
  by_cases h : st.bridges.contains b = true
  · rw [if_pos h]; exact ⟨rfl, rfl⟩
  · rw [if_neg h]; exact ⟨rfl, rfl⟩

theorem cleanup_ovs_bridge_absent (st : Substrate) (b : String) :
    (cleanup_ovs_bridge st b).1.bridges.contains b = false := by
  unfold cleanup_ovs_bridge
  by_cases h : st.bridges.contains b = true
  · rw [if_pos h]; exact removeStr_contains_self _ _
  · rw [if_neg h]; exact Bool.eq_false_iff.mpr h

theorem cleanup_ovs_bridge_pres (st : Substrate) (b x : String)
    (h : st.bridges.contains x = false) :
    (cleanup_ovs_bridge st b).1.bridges.contains x = false := by
  unfold cleanup_ovs_bridge
  by_cases hc : st.bridges.contains b = true
  · rw [if_pos hc]; exact removeStr_contains_absent _ _ _ h
  · rw [if_neg hc]; exact h

theorem cleanup_network_one_domains (st : Substrate) (n : String) :
    (cleanup_network_one st n).1.domains = st.domains := (cleanup_network_one_fields st n).1

theorem cleanup_network_one_bridges (st : Substrate) (n : String) :
    (cleanup_network_one st n).1.bridges = st.bridges := (cleanup_network_one_fields st n).2

theorem cleanup_ovs_bridge_domains (st : Substrate) (b : String) :
    (cleanup_ovs_bridge st b).1.domains = st.domains := (cleanup_ovs_bridge_fields st b).1

theorem cleanup_ovs_bridge_nets (st : Substrate) (b : String) :
    (cleanup_ovs_bridge st b).1.nets = st.nets := (cleanup_ovs_bridge_fields st b).2

theorem cleanup_explicit_nets_domains :
    ∀ nets st, (cleanup_explicit_nets st nets).1.domains = st.domains := by
  intro nets
  induction nets with
  | nil => intro st; rfl
  | cons n rest ih =>
      intro st
      cases hb : n.use_ovs with
      | false =>
          simp only [cleanup_explicit_nets, hb, Bool.false_eq_true, if_false]
          rw [ih, cleanup_network_one_domains]
      | true =>
          cases hs : strVal? n.bridge_name with
          | none =>
              simp only [cleanup_explicit_nets, hb, eq_self_iff_true, if_true, hs]
              rw [ih, cleanup_network_one_domains]
          | some b =>
              simp only [cleanup_explicit_nets, hb, eq_self_iff_true, if_true, hs]
              rw [ih, cleanup_ovs_bridge_domains, cleanup_network_one_domains]

theorem cleanup_explicit_nets_net_pres :
    ∀ nets st x, st.nets.contains x = false →
      (cleanup_explicit_nets st nets).1.nets.contains x = false := by
  intro nets
  induction nets with
  | nil => intro st x h; exact h
  | cons n rest ih =>
      intro st x h
      have h1 := cleanup_network_one_net_pres st n.name x h
      cases hb : n.use_ovs with
      | false =>
          simp only [cleanup_explicit_nets, hb, Bool.false_eq_true, if_false]
          exact ih _ x h1
      | true =>
          cases hs : strVal? n.bridge_name with
          | none =>
              simp only [cleanup_explicit_nets, hb, eq_self_iff_true, if_true, hs]
              exact ih _ x h1
          | some b =>
              simp only [cleanup_explicit_nets, hb, eq_self_iff_true, if_true, hs]
              refine ih _ x ?_
              rw [cleanup_ovs_bridge_nets]
              exact h1

theorem cleanup_explicit_nets_bridge_pres :
    ∀ nets st x, st.bridges.contains x = false →
      (cleanup_explicit_nets st nets).1.bridges.contains x = false := by
  intro nets
  induction nets with
  | nil => intro st x h; exact h
  | cons n rest ih =>
      intro st x h
      cases hb : n.use_ovs with
      | false =>
          simp only [cleanup_explicit_nets, hb, Bool.false_eq_true, if_false]
          refine ih _ x ?_
          rw [cleanup_network_one_bridges]
          exact h
      | true =>
          cases hs : strVal? n.bridge_name with
          | none =>
              simp only [cleanup_explicit_nets, hb, eq_self_iff_true, if_true, hs]
              refine ih _ x ?_
              rw [cleanup_network_one_bridges]
              exact h
          | some b =>
              simp only [cleanup_explicit_nets, hb, eq_self_iff_true, if_true, hs]
              refine ih _ x (cleanup_ovs_bridge_pres _ b x ?_)
              rw [cleanup_network_one_bridges]
              exact h

theorem cleanup_explicit_nets_estab :
    ∀ nets st n, n ∈ nets →
      (cleanup_explicit_nets st nets).1.nets.contains n.name = false ∧
        (n.use_ovs = true → ∀ b, strVal? n.bridge_name = some b →
          (cleanup_explicit_nets st nets).1.bridges.contains b = false) := by
  intro nets
  induction nets with
  | nil => intro st n h; simp at h
  | cons u rest ih =>
      intro st n h
      rcases List.mem_cons.mp h with heq | h'
      · subst heq
        constructor
        · cases hb : n.use_ovs with
          | false =>
              simp only [cleanup_explicit_nets, hb, Bool.false_eq_true, if_false]
              exact cleanup_explicit_nets_net_pres rest _ n.name
                (cleanup_network_one_absent st n.name)
          | true =>
              cases hs : strVal? n.bridge_name with
              | none =>
                  simp only [cleanup_explicit_nets, hb, eq_self_iff_true, if_true, hs]
                  exact cleanup_explicit_nets_net_pres rest _ n.name
                    (cleanup_network_one_absent st n.name)
              | some b =>
                  simp only [cleanup_explicit_nets, hb, eq_self_iff_true, if_true, hs]
                  refine cleanup_explicit_nets_net_pres rest _ n.name ?_
                  rw [cleanup_ovs_bridge_nets]
                  exact cleanup_network_one_absent st n.name
        · intro hb b hs
          simp only [cleanup_explicit_nets, hb, eq_self_iff_true, if_true, hs]
          exact cleanup_explicit_nets_bridge_pres rest _ b (cleanup_ovs_bridge_absent _ b)
      · cases hb : u.use_ovs with
        | false =>
            simp only [cleanup_explicit_nets, hb, Bool.false_eq_true, if_false]
            exact ih _ n h'
        | true =>
            cases hs : strVal? u.bridge_name with
            | none =>
                simp only [cleanup_explicit_nets, hb, eq_self_iff_true, if_true, hs]
                exact ih _ n h'
            | some b =>
                simp only [cleanup_explicit_nets, hb, eq_self_iff_true, if_true, hs]
                exact ih _ n h'

theorem cleanup_h2d_domains :
    ∀ ps st, (cleanup_h2d_nets st ps).1.domains = st.domains := by
  intro ps
  induction ps with
  | nil => intro st; rfl
  | cons p rest ih =>
      intro st
      simp only [cleanup_h2d_nets]
      rw [ih, cleanup_ovs_bridge_domains, cleanup_network_one_domains]

theorem cleanup_h2d_net_pres :
    ∀ ps st x, st.nets.contains x = false →
      (cleanup_h2d_nets st ps).1.nets.contains x = false := by
  intro ps
  induction ps with
  | nil => intro st x h; exact h
  | cons p rest ih =>
      intro st x h
      simp only [cleanup_h2d_nets]
      refine ih _ x ?_
      rw [cleanup_ovs_bridge_nets]
      exact cleanup_network_one_net_pres st _ x h

theorem cleanup_h2d_bridge_pres :
    ∀ ps st x, st.bridges.contains x = false →
      (cleanup_h2d_nets st ps).1.bridges.contains x = false := by
  intro ps
  induction ps with
  | nil => intro st x h; exact h
  | cons p rest ih =>
      intro st x h
      simp only [cleanup_h2d_nets]
      refine ih _ x (cleanup_ovs_bridge_pres _ _ x ?_)
      rw [cleanup_network_one_bridges]
      exact h

theorem cleanup_h2d_estab :
    ∀ ps st p, p ∈ ps →
      (cleanup_h2d_nets st ps).1.nets.contains
          (get_host_to_dpu_network_name p.1.name p.2.name) = false ∧
        (cleanup_h2d_nets st ps).1.bridges.contains
          (generate_bridge_name p.1.name p.2.name) = false := by
  intro ps
  induction ps with
  | nil => intro st p h; simp at h
  | cons q rest ih =>
      intro st p h
      rcases List.mem_cons.mp h with heq | h'
      · subst heq
        constructor
        · simp only [cleanup_h2d_nets]
          refine cleanup_h2d_net_pres rest _ _ ?_
          rw [cleanup_ovs_bridge_nets]
          exact cleanup_network_one_absent st _
        · simp only [cleanup_h2d_nets]
          exact cleanup_h2d_bridge_pres rest _ _ (cleanup_ovs_bridge_absent _ _)
      · simp only [cleanup_h2d_nets]
        exact ih _ p h'

theorem cleanup_vm_id (st : Substrate) (v : String) (h : st.domains.contains v = false) :
    cleanup_vm st v = (st, CleanOutcome.alreadyAbsent) := by
  unfold cleanup_vm
  rw [if_neg (fun hc => Bool.false_ne_true (h ▸ hc))]

theorem cleanup_network_one_id (st : Substrate) (n : String) (h : st.nets.contains n = false) :
    cleanup_network_one st n = (st, CleanOutcome.alreadyAbsent) := by
  unfold cleanup_network_one
  rw [if_neg (fun hc => Bool.false_ne_true (h ▸ hc))]

theorem cleanup_ovs_bridge_id (st : Substrate) (b : String) (h : st.bridges.contains b = false) :
    cleanup_ovs_bridge st b = (st, CleanOutcome.alreadyAbsent) := by
  unfold cleanup_ovs_bridge
  rw [if_neg (fun hc => Bool.false_ne_true (h ▸ hc))]

theorem cleanup_vms_id :
    ∀ vms st, (∀ v ∈ vms, st.domains.contains v.name = false) →
      (cleanup_vms st vms).1 = st ∧
        ∀ o ∈ (cleanup_vms st vms).2, o = CleanOutcome.alreadyAbsent := by
  intro vms
  induction vms with
  | nil =>
      intro st h
      exact ⟨rfl, fun o ho => by simp [cleanup_vms] at ho⟩
  | cons v rest ih =>
      intro st h
      have hstep := cleanup_vm_id st v.name (h v (List.mem_cons_self _ _))
      obtain ⟨ih1, ih2⟩ := ih st (fun u hu => h u (List.mem_cons_of_mem _ hu))
      constructor
      · simp only [cleanup_vms, hstep]
        exact ih1
      · intro o ho
        simp only [cleanup_vms, hstep] at ho
        rcases List.mem_cons.mp ho with heq | ho'
        · exact heq
        · exact ih2 o ho'

theorem cleanup_explicit_nets_id :
    ∀ nets st,
      (∀ n ∈ nets, st.nets.contains n.name = false ∧
        (n.use_ovs = true → ∀ b, strVal? n.bridge_name = some b →
          st.bridges.contains b = false)) →
      (cleanup_explicit_nets st nets).1 = st ∧
        ∀ o ∈ (cleanup_explicit_nets st nets).2, o = CleanOutcome.alreadyAbsent := by
  intro nets
  induction nets with
  | nil =>
      intro st h
      exact ⟨rfl, fun o ho => by simp [cleanup_explicit_nets] at ho⟩
  | cons n rest ih =>
      intro st h
      have hn := h n (List.mem_cons_self _ _)
      have hstep := cleanup_network_one_id st n.name hn.1
      obtain ⟨ih1, ih2⟩ := ih st (fun u hu => h u (List.mem_cons_of_mem _ hu))
      cases hb : n.use_ovs with
      | false =>
          constructor
          · simp only [cleanup_explicit_nets, hb, Bool.false_eq_true, if_false, hstep]
            exact ih1
          · intro o ho
            simp only [cleanup_explicit_nets, hb, Bool.false_eq_true, if_false, hstep] at ho
            rcases List.mem_cons.mp ho with heq | ho2
            · exact heq
            · exact ih2 o (by simpa using ho2)
      | true =>
          cases hs : strVal? n.bridge_name with
          | none =>
              constructor
              · simp only [cleanup_explicit_nets, hb, eq_self_iff_true, if_true, hs, hstep]
                exact ih1
              · intro o ho
                simp only [cleanup_explicit_nets, hb, eq_self_iff_true, if_true, hs,
                  hstep] at ho
                rcases List.mem_cons.mp ho with heq | ho2
                · exact heq
                · exact ih2 o (by simpa using ho2)
          | some b =>
              have hbr := cleanup_ovs_bridge_id st b (hn.2 hb b hs)
              constructor
              · simp only [cleanup_explicit_nets, hb, eq_self_iff_true, if_true, hs,
                  hstep, hbr]
                exact ih1
              · intro o ho
                simp only [cleanup_explicit_nets, hb, eq_self_iff_true, if_true, hs,
                  hstep, hbr] at ho
                rcases List.mem_cons.mp ho with heq | ho2
                · exact heq
                · rcases List.mem_cons.mp (by simpa using ho2 : o ∈
                      CleanOutcome.alreadyAbsent :: (cleanup_explicit_nets st rest).2) with
                    heq2 | ho3
                  · exact heq2
                  · exact ih2 o ho3

theorem cleanup_h2d_id :
    ∀ ps st,
      (∀ p ∈ ps,
        st.nets.contains (get_host_to_dpu_network_name p.1.name p.2.name) = false ∧
          st.bridges.contains (generate_bridge_name p.1.name p.2.name) = false) →
      (cleanup_h2d_nets st ps).1 = st ∧
        ∀ o ∈ (cleanup_h2d_nets st ps).2, o = CleanOutcome.alreadyAbsent := by
  intro ps
  induction ps with
  | nil =>
      intro st h
      exact ⟨rfl, fun o ho => by simp [cleanup_h2d_nets] at ho⟩
  | cons p rest ih =>
      intro st h
      have hp := h p (List.mem_cons_self _ _)
      have hstep := cleanup_network_one_id st _ hp.1
      have hbr := cleanup_ovs_bridge_id st _ hp.2
      obtain ⟨ih1, ih2⟩ := ih st (fun u hu => h u (List.mem_cons_of_mem _ hu))
      constructor
      · simp only [cleanup_h2d_nets, hstep, hbr]
        exact ih1
      · intro o ho
        simp only [cleanup_h2d_nets, hstep, hbr] at ho
        rcases List.mem_cons.mp ho with heq | ho2
        · exact heq
        · rcases List.mem_cons.mp ho2 with heq2 | ho3
          · exact heq2
          · exact ih2 o ho3

/-- C9: running teardown (`cleanup_vms` then `cleanup_networks`) twice
in a row over the same configuration is a no-op the second time: the
substrate is unchanged and every per-resource step of the second run —
each VM, each explicit network and its software-switch bridge, each
derived host-to-DPU network and bridge — reports the resource already
absent, which the source treats as success (the `libvirtError` and
`ovs-vsctl` failures are caught and only logged). -/
theorem C9_teardown_idempotent (st : Substrate) (vms : List VmCfg) (networks : List NetCfg) :
    (cleanup_all (cleanup_all st vms networks).1 vms networks).1 =
        (cleanup_all st vms networks).1 ∧
      ∀ o ∈ (cleanup_all (cleanup_all st vms networks).1 vms networks).2,
        o = CleanOutcome.alreadyAbsent := by
  have hA : ∀ v ∈ vms, (cleanup_all st vms networks).1.domains.contains v.name = false := by
    intro v hv
    show (cleanup_h2d_nets (cleanup_explicit_nets (cleanup_vms st vms).1 networks).1
        (get_host_dpu_pairs vms)).1.domains.contains v.name = false
    rw [cleanup_h2d_domains, cleanup_explicit_nets_domains]
    exact cleanup_vms_dom_absent vms st v hv
  have hB : ∀ n ∈ networks,
      (cleanup_all st vms networks).1.nets.contains n.name = false ∧
        (n.use_ovs = true → ∀ b, strVal? n.bridge_name = some b →
          (cleanup_all st vms networks).1.bridges.contains b = false) := by
    intro n hn
    have he := cleanup_explicit_nets_estab networks (cleanup_vms st vms).1 n hn
    constructor
    · show (cleanup_h2d_nets (cleanup_explicit_nets (cleanup_vms st vms).1 networks).1
          (get_host_dpu_pairs vms)).1.nets.contains n.name = false
      exact cleanup_h2d_net_pres _ _ _ he.1
    · intro hb b hs
      show (cleanup_h2d_nets (cleanup_explicit_nets (cleanup_vms st vms).1 networks).1
          (get_host_dpu_pairs vms)).1.bridges.contains b = false
      exact cleanup_h2d_bridge_pres _ _ _ (he.2 hb b hs)
  have hC : ∀ p ∈ get_host_dpu_pairs vms,
      (cleanup_all st vms networks).1.nets.contains
          (get_host_to_dpu_network_name p.1.name p.2.name) = false ∧
        (cleanup_all st vms networks).1.bridges.contains
          (generate_bridge_name p.1.name p.2.name) = false := by
    intro p hp
    constructor
    · show (cleanup_h2d_nets (cleanup_explicit_nets (cleanup_vms st vms).1 networks).1
          (get_host_dpu_pairs vms)).1.nets.contains
          (get_host_to_dpu_network_name p.1.name p.2.name) = false
      exact (cleanup_h2d_estab _ _ p hp).1
    · show (cleanup_h2d_nets (cleanup_explicit_nets (cleanup_vms st vms).1 networks).1
          (get_host_dpu_pairs vms)).1.bridges.contains
          (generate_bridge_name p.1.name p.2.name) = false
      exact (cleanup_h2d_estab _ _ p hp).2
  have hv := cleanup_vms_id vms (cleanup_all st vms networks).1 hA
  have he := cleanup_explicit_nets_id networks (cleanup_all st vms networks).1 hB
  have hh := cleanup_h2d_id (get_host_dpu_pairs vms) (cleanup_all st vms networks).1 hC
  constructor
  · show (cleanup_h2d_nets (cleanup_explicit_nets
        (cleanup_vms (cleanup_all st vms networks).1 vms).1 networks).1
        (get_host_dpu_pairs vms)).1 = (cleanup_all st vms networks).1
    rw [hv.1, he.1, hh.1]
  · intro o ho
    have ho' : o ∈ (cleanup_vms (cleanup_all st vms networks).1 vms).2 ++
        ((cleanup_explicit_nets (cleanup_vms (cleanup_all st vms networks).1 vms).1
            networks).2 ++
          (cleanup_h2d_nets (cleanup_explicit_nets
              (cleanup_vms (cleanup_all st vms networks).1 vms).1 networks).1
            (get_host_dpu_pairs vms)).2) := ho
    rw [hv.1] at ho'
    rw [he.1] at ho'
    rcases List.mem_append.mp ho' with h1 | h12
    · exact hv.2 o h1
    · rcases List.mem_append.mp h12 with h2 | h3
      · exact he.2 o h2
      · exact hh.2 o h3

/-! ### C4: the derived name on 10,000 distinct pairs

`generate_bridge_name` is a pure function of the ordered pair and
always yields the 4-character tag plus an 8-character hash prefix,
12 ≤ 15 characters.  The collision property over families of distinct
pairs fails without even evaluating the hash: the dash separator can
occur inside names, so two distinct pairs can share the joined string;
the family below has 10,000 pairwise-distinct pairs and a repeated
derived name. -/

/-- 10,000 pairwise-distinct ordered pairs: the two separator-ambiguous
pairs and 9,998 fillers whose first components all differ in length. -/
def pairsC4 : List (String × String) :=
  ("a-b", "c") :: ("a", "b-c") ::
    (List.range 9998).map (fun i => (String.mk (List.replicate i 'z'), "q"))

theorem pairsC4_length : pairsC4.length = 10000 := by
  unfold pairsC4
  simp

theorem pairsC4_nodup : pairsC4.Nodup := by
  have hinj : Function.Injective
      (fun i : Nat => ((String.mk (List.replicate i 'z') : String), ("q" : String))) := by
    intro i j h
    simp only [Prod.mk.injEq, and_true] at h
    have h2 : List.replicate i 'z' = List.replicate j 'z' := congrArg String.data h
    have h3 := congrArg List.length h2
    simpa using h3
  unfold pairsC4
  refine List.nodup_cons.mpr ⟨?_, List.nodup_cons.mpr ⟨?_, ?_⟩⟩
  · intro hmem
    rcases List.mem_cons.mp hmem with heq | hmem2
    · exact absurd heq (by decide)
    · obtain ⟨i, _, heq⟩ := List.mem_map.mp hmem2
      have hq : ("q" : String) = "c" := congrArg Prod.snd heq
      exact absurd hq (by decide)
  · intro hmem
    obtain ⟨i, _, heq⟩ := List.mem_map.mp hmem
    have hq : ("q" : String) = "b-c" := congrArg Prod.snd heq
    exact absurd hq (by decide)
  · exact (List.nodup_range 9998).map hinj

/-- C4 counterexample: a family of 10,000 pairwise-distinct ordered
pairs among which two distinct pairs — the separator-ambiguous
`("a-b","c")` and `("a","b-c")` — produce the same derived bridge
name, so "no two of 10,000 distinct pairs produce the same name" is
not a property of the function. -/
theorem C4_distinct_pairs_same_name :
    pairsC4.length = 10000 ∧ pairsC4.Nodup ∧
      ¬ (pairsC4.map (fun p => generate_bridge_name p.1 p.2)).Nodup := by
  refine ⟨pairsC4_length, pairsC4_nodup, fun h => ?_⟩
  unfold pairsC4 at h
  rw [List.map_cons, List.map_cons] at h
  have h1 := (List.nodup_cons.mp h).1
  apply h1
  show generate_bridge_name "a-b" "c" ∈ generate_bridge_name "a" "b-c" :: _
  have heq : generate_bridge_name "a-b" "c" = generate_bridge_name "a" "b-c" := by
    unfold generate_bridge_name
    rfl
  rw [heq]
  exact List.mem_cons_self _ _

/-- C4: the derived bridge name is a pure deterministic function of
the ordered pair (equal pairs yield equal names) and is always exactly
12 characters — the fixed tag `"h2d-"` plus the fixed-width 8-hex-char
hash prefix — hence within the 15-character interface-name limit.
Collision-freeness over every family of 10,000 distinct pairs fails:
see the counterexample. -/
theorem C4_bridge_name_deterministic_and_short :
    ∀ a b : String, (generate_bridge_name a b).length = 12 ∧
      (generate_bridge_name a b).length ≤ 15 ∧
      ∀ a' b' : String, a = a' → b = b' →
        generate_bridge_name a b = generate_bridge_name a' b' := by
  intro a b
  refine ⟨generate_bridge_name_length a b, ?_, ?_⟩
  · rw [generate_bridge_name_length]
    omega
  · intro a' b' h1 h2
    rw [h1, h2]

end DpuSim
